import Mathlib

/-!
# GPU selection in `Source/Common/BestGpu.cpp`

A shallow embedding of the device selection code of `BestGpu.cpp`
(`BestGpu::GetDevices`, `BestGpu::QueryNvmlData`, `BestGpu::LockDevice`,
`SelectDevice` and the helpers they call) together with theorems about it.

Conventions of the embedding.

* `int` values are `Int`; `unsigned int`, `unsigned long long` and `size_t`
  values are `Nat`, reduced modulo `2 ^ 32` or `2 ^ 64` where the C++ code
  can wrap.
* `double` values are the type `Dbl`: exact rationals extended with the IEEE
  special values `+inf`, `-inf` and `NaN`, so that the unguarded division
  `cudaFreeMem / (double) cudaTotalMem` and the comparison `score > scores[i]`
  behave as in IEEE arithmetic on a zero divisor.  Rounding is not modelled.
* The CUDA runtime, the NVML library and the cross-process mutexes are
  outside the file under study; their answers are parameters (`CudaEnv`,
  `NvmlEnv`, `LockEnv`).  Every `Acquire` on a cross-process mutex is
  recorded in a log, which makes "no lock was touched" a statement about
  that log.
-/

namespace BestGpu

/-! ## Doubles -/

/-- Values of C++ `double`, without rounding: a rational or one of the IEEE
special values. -/
inductive Dbl where
  | nan
  | ninf
  | fin (q : ℚ)
  | pinf
  deriving DecidableEq

namespace Dbl

/-- IEEE addition. -/
def add : Dbl → Dbl → Dbl
  | nan, _ => nan
  | _, nan => nan
  | pinf, ninf => nan
  | ninf, pinf => nan
  | pinf, _ => pinf
  | _, pinf => pinf
  | ninf, _ => ninf
  | _, ninf => ninf
  | fin a, fin b => fin (a + b)

/-- Product of an infinity of sign `pos` with the finite value `a`. -/
def mulInf (pos : Bool) (a : ℚ) : Dbl :=
  if a = 0 then nan else if (0 < a) = pos then pinf else ninf

/-- IEEE multiplication. -/
def mul : Dbl → Dbl → Dbl
  | nan, _ => nan
  | _, nan => nan
  | pinf, pinf => pinf
  | ninf, ninf => pinf
  | pinf, ninf => ninf
  | ninf, pinf => ninf
  | pinf, fin a => mulInf true a
  | fin a, pinf => mulInf true a
  | ninf, fin a => mulInf false a
  | fin a, ninf => mulInf false a
  | fin a, fin b => fin (a * b)

/-- IEEE quotient of two finite values; a zero divisor is `+0.0`, which is
what the conversion of an unsigned integer gives. -/
def quot (a b : ℚ) : Dbl :=
  if b = 0 then (if a = 0 then nan else if 0 < a then pinf else ninf)
  else fin (a / b)

/-- The C++ comparison `a > b` on doubles: false as soon as one side is NaN. -/
def gt : Dbl → Dbl → Bool
  | nan, _ => false
  | _, nan => false
  | ninf, _ => false
  | _, pinf => false
  | pinf, _ => true
  | _, ninf => true
  | fin a, fin b => decide (b < a)

/-- The C++ comparison `a >= b` on doubles: false as soon as one side is NaN. -/
def ge : Dbl → Dbl → Bool
  | nan, _ => false
  | _, nan => false
  | pinf, _ => true
  | _, ninf => true
  | ninf, _ => false
  | _, pinf => false
  | fin a, fin b => decide (b ≤ a)

instance : Add Dbl := ⟨add⟩
instance : Mul Dbl := ⟨mul⟩

end Dbl

/-! ## Data model -/

/-- The fields of `nvmlMemory_t`. -/
structure nvmlMemory_t where
  total : Nat
  free : Nat
  used : Nat
  deriving DecidableEq

/-- The fields of `nvmlUtilization_t` (percentages, `unsigned int`). -/
structure nvmlUtilization_t where
  gpu : Nat
  memory : Nat
  deriving DecidableEq

/-- The fields of `cudaDeviceProp` that `BestGpu.cpp` reads. -/
structure cudaDeviceProp where
  major : Int
  minor : Int
  multiProcessorCount : Int
  pciBusID : Int
  tccDriver : Int
  deriving DecidableEq

/-- The record `ProcessorData` kept per device. -/
structure ProcessorData where
  cores : Int
  memory : nvmlMemory_t
  utilization : nvmlUtilization_t
  deviceProp : cudaDeviceProp
  cudaFreeMem : Nat
  cudaTotalMem : Nat
  cntkFound : Bool
  deviceId : Int
  deriving DecidableEq

/-- The value `ProcessorData pdEmpty = {0}` of `BestGpu::Init`. -/
def pdEmpty : ProcessorData :=
  { cores := 0, memory := ⟨0, 0, 0⟩, utilization := ⟨0, 0⟩,
    deviceProp := ⟨0, 0, 0, 0, 0⟩, cudaFreeMem := 0, cudaTotalMem := 0,
    cntkFound := false, deviceId := 0 }

/-! The enumerators of `BestGpuFlags`; a flag set is the bitwise or of some of
them, kept as a `Nat`. -/

def bestGpuNormal : Nat := 0
def bestGpuAvoidSharing : Nat := 1
def bestGpuFavorMemory : Nat := 2
def bestGpuFavorUtilization : Nat := 4
def bestGpuFavorSpeed : Nat := 8
def bestGpuExclusiveLock : Nat := 16
def bestGpuRequery : Nat := 256

/-- `BestGpu::AllDevices`. -/
def AllDevices : Int := -1
/-- `BestGpu::RequeryDevices`. -/
def RequeryDevices : Int := -2

/-- The members of class `BestGpu`.  `m_allowedDevices` is the bit pattern of
the 32-bit `int`; `m_GPUMutex` lists the keys of the map of held mutexes. -/
structure State where
  m_GPUMutex : List Int
  m_initialized : Bool
  m_nvmlData : Bool
  m_cudaData : Bool
  m_deviceCount : Nat
  m_queryCount : Nat
  m_lastFlags : Nat
  m_lastCount : Int
  m_procData : List ProcessorData
  m_allowedDevices : Nat
  deriving DecidableEq

/-! ## Device set policy -/

/-- The bit pattern of `1 << device` in a 32-bit `int`, for a shift count in
`0..31`; other counts are undefined in C++ and give no bit here. -/
def bit32 (device : Int) : Nat :=
  if 0 ≤ device ∧ device < 32 then 2 ^ device.toNat else 0

/-- `BestGpu::DeviceAllowed`. -/
def DeviceAllowed (s : State) (device : Int) : Bool :=
  s.m_allowedDevices &&& bit32 device != 0

/-- `BestGpu::SetAllowedDevices`. -/
def SetAllowedDevices (s : State) (devices : List Int) : State :=
  { s with m_allowedDevices := devices.foldl (fun m device => m ||| bit32 device) 0 }

/-- `BestGpu::DisallowDevice`. -/
def DisallowDevice (s : State) (device : Int) : State :=
  { s with m_allowedDevices := s.m_allowedDevices &&& (2 ^ 32 - 1 - bit32 device) }

/-- `BestGpu::AllowAll`: `-1` sets all 32 bits. -/
def AllowAll (s : State) : State :=
  { s with m_allowedDevices := 2 ^ 32 - 1 }

/-! ## Scoring -/

/-- The five weights of the score. -/
structure Weights where
  utilGpuW : ℚ
  utilMemW : ℚ
  speedW : ℚ
  freeMemW : ℚ
  mlAppRunningW : ℚ

/-- The weight adjustment of `GetDevices`: the base values, each scaled when
its modifier bit is set in `bestFlags`. -/
def adjustWeights (bestFlags : Nat) : Weights :=
  { utilGpuW := if bestFlags &&& bestGpuFavorUtilization != 0 then 0.15 * 2 else 0.15
    utilMemW := if bestFlags &&& bestGpuFavorUtilization != 0 then 0.1 * 2 else 0.1
    speedW := if bestFlags &&& bestGpuFavorSpeed != 0 then 0.2 * 2 else 0.2
    freeMemW := if bestFlags &&& bestGpuFavorMemory != 0 then 0.2 * 2 else 0.2
    mlAppRunningW := if bestFlags &&& bestGpuAvoidSharing != 0 then 0.2 * 3 else 0.2 }

/-- The flags that `GetDevices` scores with: on a requery the flags of the
last query replace the ones passed. -/
def effectiveFlags (s : State) (p_bestFlags : Nat) : Nat :=
  if p_bestFlags &&& bestGpuRequery != 0 then s.m_lastFlags else p_bestFlags

/-- The local `mem` of the scoring loop: the free-memory ratio of a device. -/
def memRatio (pd : ProcessorData) : Dbl :=
  let mem : Dbl :=
    if pd.memory.total > 0 then Dbl.quot pd.memory.free pd.memory.total
    else Dbl.fin 1000000
  if pd.deviceProp.tccDriver = 0 ∨ pd.memory.total = 0 then
    Dbl.quot pd.cudaFreeMem pd.cudaTotalMem
  else mem

/-- The score the loop of `GetDevices` computes for one device, as the value
of the expression of lines 422 to 430 in exact arithmetic: the rounding of the
`float` quotients and of the `double` products and sums is left out here, and
is part of `machineScore`. -/
def deviceScore (w : Weights) (pd : ProcessorData) : Dbl :=
  let score : Dbl := Dbl.fin ((1 - pd.utilization.gpu / 75) * w.utilGpuW)
  let score := score + Dbl.fin ((1 - pd.utilization.memory / 60) * w.utilMemW)
  let score := score + Dbl.fin (pd.cores / 1000 * w.speedW)
  let score := score + memRatio pd * Dbl.fin w.freeMemW
  score + Dbl.fin ((if pd.cntkFound then 0 else 1) * w.mlAppRunningW)

/-! ## Ranking -/

/-- One position of the parallel arrays `best` and `scores`. -/
abbrev Slot := Int × Dbl

/-- The inner loop of the scoring loop: the first slot whose score is below
`score` takes the device, the slots from there on move one place down and the
last one is dropped; without such a slot nothing changes. -/
def insertBest (score : Dbl) (deviceId : Int) : List Slot → List Slot
  | [] => []
  | (b, sc) :: rest =>
    if Dbl.gt score sc then (deviceId, score) :: ((b, sc) :: rest).dropLast
    else (b, sc) :: insertBest score deviceId rest

/-- The scoring loop over `m_procData`: devices that are not allowed are
skipped, the others are scored and inserted. -/
def rankLoop (s : State) (w : Weights) : List ProcessorData → List Slot → List Slot
  | [], slots => slots
  | pd :: rest, slots =>
    if !DeviceAllowed s pd.deviceId then rankLoop s w rest slots
    else rankLoop s w rest (insertBest (deviceScore w pd) pd.deviceId slots)

/-- The loop that pops trailing `-1` entries of `best`, never the entry at
index 0. -/
def trimBest : List Int → List Int
  | [] => []
  | b :: rest => b :: rest.rdropWhile (fun x => x == -1)

/-! ## The NVML library -/

/-- One entry of the array `nvmlDeviceGetComputeRunningProcesses` fills,
with the name `nvmlSystemGetProcessName` leaves in the buffer for its pid
(empty when that call fails). -/
structure nvmlProcessInfo_t where
  pid : Nat
  name : List Char

/-- The answers of NVML for one device handle during one refresh pass; `none`
and `false` stand for a result other than `NVML_SUCCESS`.  The call of
`nvmlDeviceGetComputeRunningProcesses` with a null buffer leaves the count in
`size` and its result in `sizeResult`; the call with a buffer answers with
`processInfo`. -/
structure NvmlDevice where
  handle : Bool
  pciBus : Option Int
  memory : Option nvmlMemory_t
  utilization : Option nvmlUtilization_t
  sizeResult : Bool
  size : Nat
  processInfo : Option (List nvmlProcessInfo_t)

/-- The NVML library and the process as seen during one refresh pass. -/
structure NvmlEnv where
  initOk : Bool
  device : Nat → NvmlDevice
  currentProcessId : Nat
  win32 : Bool

/-- `PATH_DELIMITER`. -/
def PATH_DELIMITER (win32 : Bool) : Char := if win32 then '\\' else '/'

/-- The effect of `find_last_of(PATH_DELIMITER)` and `substr(pos + 1)`: what
follows the last delimiter, or the whole name without one. -/
def stripPath (win32 : Bool) (name : List Char) : List Char :=
  name.rtakeWhile (fun c => c != PATH_DELIMITER win32)

/-- Modelled from the spec: `EqualCI` of `Basics.h`, the case-insensitive
comparison of a name with a fixed executable name. -/
def EqualCI (name : List Char) (other : String) : Bool :=
  name.map Char.toLower == other.toList.map Char.toLower

/-- The body of the loop over `processInfo`: whether one resident process
sets `cntkFound`. -/
def processIsCntk (nvml : NvmlEnv) (info : nvmlProcessInfo_t) : Bool :=
  let name := stripPath nvml.win32 info.name
  if nvml.currentProcessId = info.pid ∨ name.length = 0 then false
  else if nvml.win32 then
    EqualCI name "cntk.exe" || (EqualCI name "cn.exe" || EqualCI name "dbn.exe")
  else name == "cntk".toList

/-- The smoothing of one utilization counter in `unsigned int` arithmetic. -/
def smooth (old queryCount sample : Nat) : Nat :=
  ((old * queryCount % 2 ^ 32 + sample * 2 % 2 ^ 32) % 2 ^ 32) / ((queryCount + 2) % 2 ^ 32)

/-- Assignment through the pointer `curPd`: the record at position `k` is
replaced by its image under `f`. -/
def updatePd (s : State) (k : Nat) (f : ProcessorData → ProcessorData) : State :=
  { s with m_procData := s.m_procData.modify f k }

/-- How one iteration of the loop of `QueryNvmlData` ends: with the next
iteration, or with a `return` out of the function. -/
inductive QueryStep where
  | next (s : State)
  | back (s : State)

/-- The body of the loop of `QueryNvmlData` for handle index `i`.  The result
of the call that reads the count `size` is assigned and not tested, so
`sizeResult` does not occur. -/
def queryStep (nvml : NvmlEnv) (i : Nat) (s : State) : QueryStep :=
  let dev := nvml.device i
  if !dev.handle then .back s else
  match dev.pciBus with
  | none => .back s
  | some bus =>
    match s.m_procData.findIdx? (fun pd => pd.deviceProp.pciBusID == bus) with
    | none => .next s
    | some k =>
      match dev.memory with
      | none => .back s
      | some memory =>
        let s := updatePd s k (fun pd => { pd with memory := memory })
        match dev.utilization with
        | none => .back s
        | some utilization =>
          let s :=
            if s.m_queryCount != 0 then
              updatePd s k (fun pd => { pd with utilization :=
                { gpu := smooth pd.utilization.gpu s.m_queryCount utilization.gpu
                  memory := smooth pd.utilization.memory s.m_queryCount utilization.memory } })
            else updatePd s k (fun pd => { pd with utilization := utilization })
          let s := { s with m_queryCount := s.m_queryCount + 1 }
          if dev.size > 0 then
            match dev.processInfo with
            | none => .back s
            | some processInfo =>
              .next (updatePd s k (fun pd =>
                { pd with cntkFound := processInfo.any (processIsCntk nvml) }))
          else .next s

/-- The loop of `QueryNvmlData` over the handle indices still to visit. -/
def queryLoop (nvml : NvmlEnv) : List Nat → State → QueryStep
  | [], s => .next s
  | i :: rest, s =>
    match queryStep nvml i s with
    | .next s => queryLoop nvml rest s
    | .back s => .back s

/-- `BestGpu::QueryNvmlData`. -/
def QueryNvmlData (nvml : NvmlEnv) (s : State) : State :=
  if !s.m_cudaData then s
  else
    match queryLoop nvml (List.range s.m_deviceCount) s with
    | .next s => { s with m_nvmlData := true }
    | .back s => s

/-! ## Cross-process mutexes -/

/-- The two kinds of named mutex: the lock `"DBN.exe GPGPU querying lock"` and
the lock `"DBN.exe GPGPU exclusive lock for device %d"` of one device. -/
inductive LockName where
  | global
  | device (deviceId : Int)
  deriving DecidableEq

/-- One call of `CrossProcessMutex::Acquire` and its result. -/
structure LockEvent where
  name : LockName
  wait : Bool
  acquired : Bool
  deriving DecidableEq

/-- The calls of `Acquire` made so far, oldest first. -/
abbrev LockLog := List LockEvent

/-- The operating system as seen through `CrossProcessMutex::Acquire`: its
answer may depend on everything that was tried before. -/
structure LockEnv where
  acquire : LockLog → LockName → Bool → Bool

/-- `CrossProcessMutex::Acquire`, recorded in the log. -/
def Acquire (os : LockEnv) (name : LockName) (wait : Bool) (log : LockLog) : Bool × LockLog :=
  (os.acquire log name wait, log ++ [⟨name, wait, os.acquire log name wait⟩])

/-- `BestGpu::LockDevice`. -/
def LockDevice (os : LockEnv) (deviceId : Int) (trial : Bool) (s : State) (log : LockLog) :
    Bool × State × LockLog :=
  if deviceId < 0 then (true, s, log)
  else
    let r := Acquire os (.device deviceId) false log
    if !r.1 then (false, s, r.2)
    else if !trial then (true, { s with m_GPUMutex := s.m_GPUMutex.insert deviceId }, r.2)
    else (true, s, r.2)

/-- The loop of `GetDevices` that keeps the entries of `best` whose trial
acquisition succeeds. -/
def trialLoop (os : LockEnv) : List Int → State → LockLog → List Int × State × LockLog
  | [], s, log => ([], s, log)
  | i :: rest, s, log =>
    let r := LockDevice os i true s log
    let r' := trialLoop os rest r.2.1 r.2.2
    (if r.1 then i :: r'.1 else r'.1, r'.2.1, r'.2.2)

/-- The last loop of `GetDevices`: a held acquisition per entry, the result of
each `LockDevice` call being discarded. -/
def heldLoop (os : LockEnv) : List Int → State → LockLog → State × LockLog
  | [], s, log => (s, log)
  | b :: rest, s, log =>
    let r := LockDevice os b false s log
    heldLoop os rest r.2.1 r.2.2

/-! ## Selection -/

/-- The two errors the selection code raises: `RuntimeError` of `GetDevices`
and `InvalidArgument` of `SelectDevice`. -/
inductive Error where
  | RuntimeError
  | InvalidArgument
  deriving DecidableEq

/-- What a call leaves behind: the value returned or the error raised, the
members of the object and the log of mutex acquisitions. -/
structure Outcome (α : Type) where
  result : Except Error α
  state : State
  log : LockLog

/-- The conversion of an `int` to `size_t`. -/
def toSizeT (number : Int) : Nat := (number % 2 ^ 64).toNat

/-- `BestGpu::GetDevices`. -/
def GetDevices (nvml : NvmlEnv) (os : LockEnv) (number : Int) (p_bestFlags : Nat)
    (s : State) (log : LockLog) : Outcome (List Int) :=
  let number : Int :=
    if number = AllDevices then max (s.m_deviceCount : Int) 1
    else if number = RequeryDevices then s.m_lastCount
    else number
  if s.m_procData.length = 0 then ⟨.ok [-1], s, log⟩
  else
    let s := QueryNvmlData nvml s
    let bestFlags := effectiveFlags s p_bestFlags
    let w := adjustWeights bestFlags
    let slots := rankLoop s w s.m_procData (List.replicate s.m_deviceCount (-1, Dbl.fin (-1)))
    let best := trimBest (slots.map Prod.fst)
    let g := Acquire os .global (bestFlags &&& bestGpuExclusiveLock != 0) log
    if !g.1 then
      ⟨.error .RuntimeError, s, g.2⟩
    else
      let t := trialLoop os best s g.2
      let best := if t.1.length > toSizeT number then t.1.take (toSizeT number) else t.1
      let s := { t.2.1 with m_lastFlags := bestFlags, m_lastCount := best.length }
      let best := if best.length = 0 then [-1] else best
      let h := heldLoop os (best.take number.toNat) s t.2.2
      ⟨.ok best, h.1, h.2⟩

/-- `BestGpu::GetDevice`. -/
def GetDevice (nvml : NvmlEnv) (os : LockEnv) (bestFlags : Nat) (s : State) (log : LockLog) :
    Outcome Int :=
  let r := GetDevices nvml os 1 bestFlags s log
  ⟨r.result.map (fun best => best.headD 0), r.state, r.log⟩

/-! ## Construction -/

/-- The answers of the CUDA runtime for one device. -/
structure CudaDevice where
  deviceProp : cudaDeviceProp
  free : Nat
  total : Nat

/-- The CUDA runtime: `deviceCount` is `none` when `cudaGetDeviceCount` does
not return `cudaSuccess`. -/
structure CudaEnv where
  deviceCount : Option Nat
  device : Nat → CudaDevice

/-- The table `nGpuArchCoresPerSM` without its end marker. -/
def nGpuArchCoresPerSM : List (Int × Int) :=
  [(0x10, 8), (0x11, 8), (0x12, 8), (0x13, 8), (0x20, 32), (0x21, 48), (0x30, 192), (0x35, 192)]

/-- `_ConvertSMVer2Cores`: the cores of the first table entry for the SM
version, and those of entry 7 when there is none. -/
def _ConvertSMVer2Cores (major minor : Int) : Int :=
  match nGpuArchCoresPerSM.find? (fun e => e.1 == major * 16 + minor) with
  | some e => e.2
  | none => 192

/-- The loop of `GetCudaProperties`, `dev` counting the records visited. -/
def cudaLoop (cuda : CudaEnv) : Nat → List ProcessorData → List ProcessorData
  | _, [] => []
  | dev, pd :: rest =>
    { pd with
      deviceId := dev
      deviceProp := (cuda.device dev).deviceProp
      cores := _ConvertSMVer2Cores (cuda.device dev).deviceProp.major
        (cuda.device dev).deviceProp.minor * (cuda.device dev).deviceProp.multiProcessorCount
      cudaFreeMem := (cuda.device dev).free
      cudaTotalMem := (cuda.device dev).total } :: cudaLoop cuda (dev + 1) rest

/-- `BestGpu::GetCudaProperties`. -/
def GetCudaProperties (cuda : CudaEnv) (s : State) : State :=
  if s.m_cudaData then s
  else
    { s with
      m_procData := cudaLoop cuda 0 s.m_procData
      m_cudaData := decide (s.m_procData.length > 0) }

/-- `BestGpu::GetNvmlData`. -/
def GetNvmlData (nvml : NvmlEnv) (s : State) : State :=
  if s.m_nvmlData || !s.m_cudaData then s
  else if !nvml.initOk then s
  else QueryNvmlData nvml s

/-- `BestGpu::Init`. -/
def Init (cuda : CudaEnv) (nvml : NvmlEnv) (s : State) : State :=
  if s.m_initialized then s
  else
    let m_deviceCount := cuda.deviceCount.getD 0
    let s := { s with
      m_deviceCount := m_deviceCount
      m_procData := s.m_procData ++ List.replicate m_deviceCount pdEmpty }
    let s := if s.m_deviceCount > 0 then GetNvmlData nvml (GetCudaProperties cuda s) else s
    { s with m_initialized := true }

/-- The constructor `BestGpu::BestGpu()`. -/
def State.new (cuda : CudaEnv) (nvml : NvmlEnv) : State :=
  Init cuda nvml
    { m_GPUMutex := [], m_initialized := false, m_nvmlData := false, m_cudaData := false,
      m_deviceCount := 0, m_queryCount := 0, m_lastFlags := bestGpuNormal, m_lastCount := 0,
      m_procData := [], m_allowedDevices := 2 ^ 32 - 1 }

/-! ## The selection facade -/

/-- The device id constants of `CommonMatrix.h`, a header outside the files
under study: they are parameters of `SelectDevice`. -/
structure DeviceIds where
  CPUDEVICE : Int
  DEVICEID_NOTYETDETERMINED : Int
  DEVICEID_AUTO : Int

/-- What the code relies on: the two markers are negative values other than
the host-only value `-1` that `GetDevices` returns, and differ. -/
def DeviceIds.Valid (c : DeviceIds) : Prop :=
  c.CPUDEVICE = -1 ∧ c.DEVICEID_NOTYETDETERMINED < -1 ∧ c.DEVICEID_AUTO < -1 ∧
    c.DEVICEID_NOTYETDETERMINED ≠ c.DEVICEID_AUTO

/-- The values the constants have in `CommonMatrix.h`. -/
def cntkDeviceIds : DeviceIds :=
  { CPUDEVICE := -1, DEVICEID_NOTYETDETERMINED := -3, DEVICEID_AUTO := -4 }

/-- The function-local statics of `SelectDevice`, with the log of mutex
acquisitions of the process. -/
structure Statics where
  selectedDeviceId : Int
  bestDeviceId : Int
  g_bestGpu : Option State
  log : LockLog

/-- The statics when the process starts. -/
def Statics.initial (c : DeviceIds) : Statics :=
  { selectedDeviceId := c.DEVICEID_NOTYETDETERMINED
    bestDeviceId := c.DEVICEID_NOTYETDETERMINED
    g_bestGpu := none
    log := [] }

/-- What the process can observe during one call of `SelectDevice`: the CUDA
runtime, NVML at construction of the selector and at its query, the locks. -/
structure SelectEnv where
  cuda : CudaEnv
  nvmlInit : NvmlEnv
  nvmlQuery : NvmlEnv
  os : LockEnv

/-- The part of `SelectDevice` after the consistency check. -/
def resolveDevice (c : DeviceIds) (env : SelectEnv) (deviceId : Int) (bLockGPU : Bool)
    (st : Statics) : Except Error Int × Statics :=
  if deviceId = c.DEVICEID_AUTO then
    if st.bestDeviceId = c.DEVICEID_NOTYETDETERMINED then
      let g := match st.g_bestGpu with
        | none => State.new env.cuda env.nvmlInit
        | some g => g
      let r := GetDevice env.nvmlQuery env.os
        (if bLockGPU then bestGpuAvoidSharing ||| bestGpuExclusiveLock else bestGpuAvoidSharing)
        g st.log
      match r.result with
      | .error e => (.error e, { st with g_bestGpu := some r.state, log := r.log })
      | .ok best =>
        (.ok best, { st with bestDeviceId := best, g_bestGpu := some r.state, log := r.log })
    else (.ok st.bestDeviceId, st)
  else (.ok deviceId, st)

/-- `SelectDevice`: the value returned or the error raised, and the statics
afterwards. -/
def SelectDevice (c : DeviceIds) (env : SelectEnv) (deviceId : Int) (bLockGPU : Bool)
    (st : Statics) : Except Error Int × Statics :=
  if st.selectedDeviceId = c.DEVICEID_NOTYETDETERMINED then
    resolveDevice c env deviceId bLockGPU { st with selectedDeviceId := deviceId }
  else if st.selectedDeviceId ≠ deviceId then (.error .InvalidArgument, st)
  else resolveDevice c env deviceId bLockGPU st

/-! ## Notions used in the statements -/

/-- What `Init` and `GetCudaProperties` establish and nothing changes
afterwards: one record per device, the record at position `i` carrying
`deviceId = i`. -/
def State.WF (s : State) : Prop :=
  s.m_deviceCount = s.m_procData.length ∧
    s.m_procData.map (fun pd => pd.deviceId) = (List.range s.m_procData.length).map Int.ofNat

instance (s : State) : Decidable s.WF := by
  unfold State.WF; infer_instance

/-- The initial content of every slot: `best[i] = -1`, `scores[i] = -1.0`. -/
def emptySlot : Slot := (-1, Dbl.fin (-1))

/-- Insertion of a scored device into a ranking that has room: before the
first entry with a smaller score. -/
def insertRanked (new : Slot) : List Slot → List Slot
  | [] => [new]
  | x :: rest => if Dbl.gt new.2 x.2 then new :: x :: rest else x :: insertRanked new rest

/-- A device takes part in the ranking when it is allowed and its score
exceeds the initial `-1.0` of the slots. -/
def eligible (s : State) (w : Weights) (pd : ProcessorData) : Bool :=
  DeviceAllowed s pd.deviceId && Dbl.gt (deviceScore w pd) (Dbl.fin (-1))

/-- The ranking of the eligible devices among `pds`, added one after the
other to the ranking `ranked`. -/
def rankFold (s : State) (w : Weights) : List ProcessorData → List Slot → List Slot
  | [], ranked => ranked
  | pd :: rest, ranked =>
    if eligible s w pd then
      rankFold s w rest (insertRanked (pd.deviceId, deviceScore w pd) ranked)
    else rankFold s w rest ranked

/-- The order of the ranking: the score of `a` is at least that of `b`, and
with equal scores `a` has the lower device index. -/
def Before (a b : Slot) : Prop :=
  Dbl.ge a.2 b.2 = true ∧ (a.2 = b.2 → a.1 < b.1)

/-- The state an iteration of the refresh loop ends with. -/
def QueryStep.state : QueryStep → State
  | .next s => s
  | .back s => s

/-- What a refresh pass leaves alone: everything but the live counters of the
records, the sample counter and `m_nvmlData`. -/
def State.Frame (s s' : State) : Prop :=
  s'.m_allowedDevices = s.m_allowedDevices ∧ s'.m_deviceCount = s.m_deviceCount ∧
    s'.m_lastFlags = s.m_lastFlags ∧ s'.m_lastCount = s.m_lastCount ∧
    s'.m_GPUMutex = s.m_GPUMutex ∧ s'.m_cudaData = s.m_cudaData ∧
    s'.m_procData.map (fun pd => pd.deviceId) = s.m_procData.map (fun pd => pd.deviceId)

/-- The requested count after the substitutions for `AllDevices` and
`RequeryDevices` at the head of `GetDevices`. -/
def requested (s : State) (number : Int) : Int :=
  if number = AllDevices then max (s.m_deviceCount : Int) 1
  else if number = RequeryDevices then s.m_lastCount
  else number

/-- The parallel arrays `best` and `scores` when the scoring loop of
`GetDevices` ends. -/
def scoredSlots (nvml : NvmlEnv) (p_bestFlags : Nat) (s : State) : List Slot :=
  rankLoop (QueryNvmlData nvml s) (adjustWeights (effectiveFlags s p_bestFlags))
    (QueryNvmlData nvml s).m_procData
    (List.replicate (QueryNvmlData nvml s).m_deviceCount emptySlot)

/-- The content of `best` when `GetDevices` reaches the global lock: the
ranking after the scoring loop and the removal of trailing `-1` entries. -/
def candidates (nvml : NvmlEnv) (p_bestFlags : Nat) (s : State) : List Int :=
  trimBest ((scoredSlots nvml p_bestFlags s).map Prod.fst)

/-- The `wait` argument of the acquisition of the global lock. -/
def globalWait (s : State) (p_bestFlags : Nat) : Bool :=
  effectiveFlags s p_bestFlags &&& bestGpuExclusiveLock != 0

/-- The content of `bestAndAvaialbe` after the availability pass. -/
def available (nvml : NvmlEnv) (os : LockEnv) (p_bestFlags : Nat) (s : State) (log : LockLog) :
    List Int :=
  (trialLoop os (candidates nvml p_bestFlags s) (QueryNvmlData nvml s)
    (Acquire os .global (globalWait s p_bestFlags) log).2).1

/-- The score `GetDevices` computes for the device with index `d`, from its
record after the refresh pass; `none` without such a record. -/
def scoreOf (nvml : NvmlEnv) (p_bestFlags : Nat) (s : State) (d : Int) : Option Dbl :=
  ((QueryNvmlData nvml s).m_procData.find? (fun pd => pd.deviceId == d)).map
    (deviceScore (adjustWeights (effectiveFlags s p_bestFlags)))

/-! ## A machine with three devices

The scenario of the specification: utilization 10, 20 and 90 percent, free
memory ratio 0.9, 0.5 and 0.1, the same cores, no competing process. -/

/-- The CUDA runtime of the example machine. -/
def cuda3 : CudaEnv :=
  { deviceCount := some 3
    device := fun i =>
      { deviceProp := { major := 3, minor := 5, multiProcessorCount := 13,
                        pciBusID := i + 1, tccDriver := 1 }
        free := 9 - 4 * i
        total := 10 } }

/-- NVML on the example machine. -/
def nvml3 : NvmlEnv :=
  { initOk := true
    device := fun i =>
      { handle := true
        pciBus := some (i + 1)
        memory := some { total := 10, free := 9 - 4 * i, used := 1 + 4 * i }
        utilization := some { gpu := [10, 20, 90].getD i 0, memory := 0 }
        sizeResult := true
        size := 0
        processInfo := none }
    currentProcessId := 1
    win32 := false }

/-- A machine without an accelerator runtime. -/
def cudaNone : CudaEnv :=
  { deviceCount := none
    device := fun _ => { deviceProp := ⟨0, 0, 0, 0, 0⟩, free := 0, total := 0 } }

/-- No other process holds a lock. -/
def osFree : LockEnv := { acquire := fun _ _ _ => true }

/-- Another process holds the lock of device `d`; all other locks are free. -/
def osHeld (d : Int) : LockEnv :=
  { acquire := fun _ name _ => decide (name ≠ .device d) }

/-- The global lock cannot be acquired. -/
def osNoGlobal : LockEnv :=
  { acquire := fun _ name _ => decide (name ≠ .global) }

/-- The selector of the example machine after construction. -/
def state3 : State := State.new cuda3 nvml3

deriving instance DecidableEq for Except

/-- The ranking of the eligible devices that `GetDevices` builds, with the
scores: the records after the refresh pass, scored with the effective flags. -/
def ranking (nvml : NvmlEnv) (p_bestFlags : Nat) (s : State) : List Slot :=
  rankFold (QueryNvmlData nvml s) (adjustWeights (effectiveFlags s p_bestFlags))
    (QueryNvmlData nvml s).m_procData []

/-- Device `a` ranks before device `b` in `GetDevices`: both are scored, the
score of `a` is at least that of `b`, and with equal scores `a` has the lower
device index. -/
def RanksBefore (nvml : NvmlEnv) (p_bestFlags : Nat) (s : State) (a b : Int) : Prop :=
  ∃ sa sb, scoreOf nvml p_bestFlags s a = some sa ∧ scoreOf nvml p_bestFlags s b = some sb ∧
    Dbl.ge sa sb = true ∧ (sa = sb → a < b)

/-- The number of devices that are allowed and whose lock is free according to
`avail`. -/
def availableCount (s : State) (avail : Int → Bool) : Nat :=
  (s.m_procData.filter (fun pd => DeviceAllowed s pd.deviceId && avail pd.deviceId)).length

/-- One call of `SelectDevice`: what the process can observe during it, and
the arguments. -/
structure Call where
  env : SelectEnv
  deviceId : Int
  bLockGPU : Bool

/-- The statics after a sequence of calls of `SelectDevice`, whatever each of
them returns or raises. -/
def runCalls (c : DeviceIds) : List Call → Statics → Statics
  | [], st => st
  | k :: rest, st => runCalls c rest (SelectDevice c k.env k.deviceId k.bLockGPU st).2

/-- The selector held by the statics, when there is one, is well formed. -/
def Statics.Inv (st : Statics) : Prop :=
  ∀ g, st.g_bestGpu = some g → g.WF

/-- An environment for `SelectDevice` on the example machine. -/
def env3 (os : LockEnv) : SelectEnv :=
  { cuda := cuda3, nvmlInit := nvml3, nvmlQuery := nvml3, os := os }

/-- The weights as the specification states them: the base values 0.15, 0.1,
0.2, 0.2 and 0.2, each scaled by the modifier of `flags` that belongs to it. -/
def specWeights (flags : Nat) : Weights :=
  { utilGpuW := 0.15 * (if flags &&& bestGpuFavorUtilization = 0 then 1 else 2)
    utilMemW := 0.1 * (if flags &&& bestGpuFavorUtilization = 0 then 1 else 2)
    speedW := 0.2 * (if flags &&& bestGpuFavorSpeed = 0 then 1 else 2)
    freeMemW := 0.2 * (if flags &&& bestGpuFavorMemory = 0 then 1 else 2)
    mlAppRunningW := 0.2 * (if flags &&& bestGpuAvoidSharing = 0 then 1 else 3) }

/-- The score as the specification states it, for the flag set `flags`: with a
finite free-memory ratio `r` the weighted sum of the five terms; an infinite
or undefined ratio carries over to the score. -/
def specScore (flags : Nat) (pd : ProcessorData) : Dbl :=
  match memRatio pd with
  | .fin r =>
    .fin ((1 - pd.utilization.gpu / 75) * (specWeights flags).utilGpuW
      + (1 - pd.utilization.memory / 60) * (specWeights flags).utilMemW
      + pd.cores / 1000 * (specWeights flags).speedW
      + r * (specWeights flags).freeMemW
      + (if pd.cntkFound then 0 else 1) * (specWeights flags).mlAppRunningW)
  | .pinf => .pinf
  | .ninf => .ninf
  | .nan => .nan

/-- The lock of every device is held by another process; the global lock is
free. -/
def osDevicesHeld : LockEnv :=
  { acquire := fun _ name _ => decide (name = .global) }

/-- The free-memory ratio as the specification states it: the ratio of the
capability source (CUDA) when the driver is in TCC mode or the total memory
read from NVML is 0, the ratio of NVML in every other case. -/
def specMemRatio (pd : ProcessorData) : Dbl :=
  if pd.deviceProp.tccDriver ≠ 0 ∨ pd.memory.total = 0 then
    Dbl.quot pd.cudaFreeMem pd.cudaTotalMem
  else Dbl.quot pd.memory.free pd.memory.total

/-- A device record with a TCC driver, 9 of 10 units free according to NVML
and 1 of 10 according to CUDA. -/
def pdTcc : ProcessorData :=
  { pdEmpty with
    memory := { total := 10, free := 9, used := 1 }
    deviceProp := { major := 3, minor := 5, multiProcessorCount := 13, pciBusID := 1,
                    tccDriver := 1 }
    cudaFreeMem := 1
    cudaTotalMem := 10 }

/-- The lock of device `d` is free until this process has acquired it once;
after that another process holds it.  All other locks are free. -/
def osLostAfterTrial (d : Int) : LockEnv :=
  { acquire := fun log name _ =>
      decide (name ≠ .device d ∨ (⟨.device d, false, true⟩ : LockEvent) ∉ log) }

/-- NVML on the example machine while a process `/usr/bin/cntk` with pid 2
computes on the first device. -/
def nvmlBusy : NvmlEnv :=
  { nvml3 with
    device := fun i =>
      if i = 0 then
        { nvml3.device 0 with
          size := 1
          processInfo := some [{ pid := 2, name := "/usr/bin/cntk".toList }] }
      else nvml3.device i }

/-- The selector of the example machine constructed while that process runs. -/
def stateBusy : State := State.new cuda3 nvmlBusy

/-- The position of the record that handle index `i` resolves to through its
PCI bus, when the handle and its PCI information can be queried and a record
has that bus. -/
def handleTarget (nvml : NvmlEnv) (s : State) (i : Nat) : Option Nat :=
  if (nvml.device i).handle then
    match (nvml.device i).pciBus with
    | some bus => s.m_procData.findIdx? (fun pd => pd.deviceProp.pciBusID == bus)
    | none => none
  else none

/-- Handle index `i` contributes a sample: it resolves to a record and its
memory and utilization queries succeed. -/
def sampled (nvml : NvmlEnv) (s : State) (i : Nat) : Bool :=
  (handleTarget nvml s i).isSome && (nvml.device i).memory.isSome &&
    (nvml.device i).utilization.isSome

/-- NVML on the example machine when the utilization query for the handle
with index 1 fails. -/
def nvmlFail : NvmlEnv :=
  { nvml3 with
    device := fun i =>
      if i = 1 then { nvml3.device 1 with utilization := none } else nvml3.device i }

deriving instance DecidableEq for QueryStep

/-- The CUDA runtime of the example machine when it reports its first two
devices only. -/
def cuda2 : CudaEnv := { cuda3 with deviceCount := some 2 }

/-- The selector under construction when `GetCudaProperties` has run for
`count` devices and `GetNvmlData` has not: the state of the first refresh. -/
def beforeFirstRefresh (cuda : CudaEnv) (count : Nat) : State :=
  GetCudaProperties cuda
    { m_GPUMutex := [], m_initialized := false, m_nvmlData := false, m_cudaData := false,
      m_deviceCount := count, m_queryCount := 0, m_lastFlags := bestGpuNormal, m_lastCount := 0,
      m_procData := List.replicate count pdEmpty, m_allowedDevices := 2 ^ 32 - 1 }

/-- A query whose result the loop of `QueryNvmlData` tests fails for handle
index `i`: the query of the handle or of its PCI information, or, when the
handle resolves to a record, the query of the memory, of the utilization or,
with a count above 0, of the process list. -/
def testedQueryFails (nvml : NvmlEnv) (s : State) (i : Nat) : Bool :=
  !(nvml.device i).handle || (nvml.device i).pciBus.isNone ||
    ((handleTarget nvml s i).isSome &&
      ((nvml.device i).memory.isNone || (nvml.device i).utilization.isNone ||
        (decide ((nvml.device i).size > 0) && (nvml.device i).processInfo.isNone)))

/-- NVML on the example machine when the call that reads the process count
for the handle with index 1 fails and leaves the count at 0. -/
def nvmlCountFail : NvmlEnv :=
  { nvml3 with
    device := fun i =>
      if i = 1 then { nvml3.device 1 with sizeResult := false } else nvml3.device i }

/-! ## The score in machine arithmetic

The statements of lines 416 to 430 of `GetDevices` compute the score of a
record in floating point: the quotients by `75.0f`, `60.0f` and `1000.0f` are
`float` divisions, the products and the sum are `double` operations on
`double` weights.  `deviceScore` is the value of that expression without any
rounding, `machineScore` below rounds every operation in its format.  The
definitions of this section take the computation of the score as a parameter,
so that what is proved of them holds whatever the arithmetic is: a function
from the flags in effect and the record to the double left in `score`, which
the loop compares with `>` like every double. -/

/-- The computation of lines 385 to 430 for one record: the flags in effect
and the record determine the weights and the double the loop body leaves in
`score`. -/
abbrev ScoreFn := Nat → ProcessorData → Dbl

/-- The computation of the score without rounding. -/
def exactScore : ScoreFn :=
  fun bestFlags pd => deviceScore (adjustWeights bestFlags) pd

/-- The number of binary digits of `n`, counted with at most `fuel` halvings. -/
def bitLength : Nat → Nat → Nat
  | 0, _ => 0
  | fuel + 1, n => if n = 0 then 0 else bitLength fuel (n / 2) + 1

/-- Rounding to the nearest number with a significand of `p` bits, ties to the
even significand, as IEEE 754 defines it for the binary formats; the exponent
range is not limited.  For `|q| = n / d` the exponent `e` is the one with
`2 ^ e ≤ n / d < 2 ^ (e + 1)`, the unit in the last place is `2 ^ sh` with
`sh = e - (p - 1)`, and `n / d` is `N / D` such units. -/
def roundNearestEven (p : Nat) (q : ℚ) : ℚ :=
  let n : Nat := q.num.natAbs
  let d : Nat := q.den
  if n = 0 then 0
  else
    let ln : Nat := bitLength n n - 1
    let ld : Nat := bitLength d d - 1
    let e : Int := if d * 2 ^ ln ≤ n * 2 ^ ld then (ln : Int) - ld else (ln : Int) - ld - 1
    let sh : Int := e - ((p : Int) - 1)
    let N : Nat := n * 2 ^ (-sh).toNat
    let D : Nat := d * 2 ^ sh.toNat
    let f : Nat := N / D
    let k : Nat :=
      if 2 * (N % D) < D then f
      else if D < 2 * (N % D) then f + 1
      else if f % 2 = 0 then f else f + 1
    let v : ℚ := ((k * 2 ^ sh.toNat : Nat) : ℚ) / ((2 ^ (-sh).toNat : Nat) : ℚ)
    if q < 0 then -v else v

/-- The value of C++ `float` nearest to `q`: binary32, 24 bits. -/
def binary32 (q : ℚ) : ℚ := roundNearestEven 24 q

/-- The value of C++ `double` nearest to `q`: binary64, 53 bits. -/
def binary64 (q : ℚ) : ℚ := roundNearestEven 53 q

/-- The result of a `double` operation whose exact value is `x`. -/
def Dbl.rounded : Dbl → Dbl
  | .fin q => .fin (binary64 q)
  | x => x

/-- The five weights as `double` values: the literals, each multiplied when
its modifier bit is set in `bestFlags`. -/
def machineWeights (bestFlags : Nat) : Weights :=
  { utilGpuW :=
      if bestFlags &&& bestGpuFavorUtilization != 0 then binary64 (binary64 0.15 * 2)
      else binary64 0.15
    utilMemW :=
      if bestFlags &&& bestGpuFavorUtilization != 0 then binary64 (binary64 0.1 * 2)
      else binary64 0.1
    speedW :=
      if bestFlags &&& bestGpuFavorSpeed != 0 then binary64 (binary64 0.2 * 2)
      else binary64 0.2
    freeMemW :=
      if bestFlags &&& bestGpuFavorMemory != 0 then binary64 (binary64 0.2 * 2)
      else binary64 0.2
    mlAppRunningW :=
      if bestFlags &&& bestGpuAvoidSharing != 0 then binary64 (binary64 0.2 * 3)
      else binary64 0.2 }

/-- The local `mem` of the scoring loop as a `double`: both operands of the
division are converted to `double`. -/
def machineMemRatio (pd : ProcessorData) : Dbl :=
  let mem : Dbl :=
    if pd.memory.total > 0 then
      (Dbl.quot (binary64 pd.memory.free) (binary64 pd.memory.total)).rounded
    else Dbl.fin 1000000
  if pd.deviceProp.tccDriver = 0 ∨ pd.memory.total = 0 then
    (Dbl.quot (binary64 pd.cudaFreeMem) (binary64 pd.cudaTotalMem)).rounded
  else mem

/-- The score of lines 385 to 430 with every operation rounded in its format:
the quotients by `75.0f`, `60.0f` and `1000.0f` are `float` divisions of the
counter converted to `float`, everything else is `double` arithmetic. -/
def machineScore : ScoreFn := fun bestFlags pd =>
  let w := machineWeights bestFlags
  let score : Dbl :=
    Dbl.fin (binary64 (binary64 (1 - binary32 (binary32 pd.utilization.gpu / 75)) * w.utilGpuW))
  let score := (score +
    Dbl.fin (binary64 (binary64 (1 - binary32 (binary32 pd.utilization.memory / 60))
      * w.utilMemW))).rounded
  let score := (score +
    Dbl.fin (binary64 (binary32 (binary32 pd.cores / 1000) * w.speedW))).rounded
  let score := (score + (machineMemRatio pd * Dbl.fin w.freeMemW).rounded).rounded
  (score + Dbl.fin (binary64 ((if pd.cntkFound then 0 else 1) * w.mlAppRunningW))).rounded

/-- The scoring loop over `m_procData` with the score of a record computed by
`sc`: devices that are not allowed are skipped, the others are scored and
inserted. -/
def rankLoopWith (s : State) (sc : ProcessorData → Dbl) :
    List ProcessorData → List Slot → List Slot
  | [], slots => slots
  | pd :: rest, slots =>
    if !DeviceAllowed s pd.deviceId then rankLoopWith s sc rest slots
    else rankLoopWith s sc rest (insertBest (sc pd) pd.deviceId slots)

/-- `BestGpu::GetDevices` with the score of lines 385 to 430 computed by
`score`. -/
def GetDevicesWith (score : ScoreFn) (nvml : NvmlEnv) (os : LockEnv) (number : Int)
    (p_bestFlags : Nat) (s : State) (log : LockLog) : Outcome (List Int) :=
  let number : Int :=
    if number = AllDevices then max (s.m_deviceCount : Int) 1
    else if number = RequeryDevices then s.m_lastCount
    else number
  if s.m_procData.length = 0 then ⟨.ok [-1], s, log⟩
  else
    let s := QueryNvmlData nvml s
    let bestFlags := effectiveFlags s p_bestFlags
    let slots := rankLoopWith s (score bestFlags) s.m_procData
      (List.replicate s.m_deviceCount (-1, Dbl.fin (-1)))
    let best := trimBest (slots.map Prod.fst)
    let g := Acquire os .global (bestFlags &&& bestGpuExclusiveLock != 0) log
    if !g.1 then
      ⟨.error .RuntimeError, s, g.2⟩
    else
      let t := trialLoop os best s g.2
      let best := if t.1.length > toSizeT number then t.1.take (toSizeT number) else t.1
      let s := { t.2.1 with m_lastFlags := bestFlags, m_lastCount := best.length }
      let best := if best.length = 0 then [-1] else best
      let h := heldLoop os (best.take number.toNat) s t.2.2
      ⟨.ok best, h.1, h.2⟩

/-- A device takes part in the ranking when it is allowed and the score `sc`
computes for it exceeds the initial `-1.0` of the slots. -/
def eligibleWith (s : State) (sc : ProcessorData → Dbl) (pd : ProcessorData) : Bool :=
  DeviceAllowed s pd.deviceId && Dbl.gt (sc pd) (Dbl.fin (-1))

/-- The ranking of the eligible devices among `pds` under the score `sc`,
added one after the other to the ranking `ranked`. -/
def rankFoldWith (s : State) (sc : ProcessorData → Dbl) :
    List ProcessorData → List Slot → List Slot
  | [], ranked => ranked
  | pd :: rest, ranked =>
    if eligibleWith s sc pd then
      rankFoldWith s sc rest (insertRanked (pd.deviceId, sc pd) ranked)
    else rankFoldWith s sc rest ranked

/-- The parallel arrays `best` and `scores` when the scoring loop of
`GetDevicesWith` ends. -/
def scoredSlotsWith (score : ScoreFn) (nvml : NvmlEnv) (p_bestFlags : Nat) (s : State) :
    List Slot :=
  rankLoopWith (QueryNvmlData nvml s) (score (effectiveFlags s p_bestFlags))
    (QueryNvmlData nvml s).m_procData
    (List.replicate (QueryNvmlData nvml s).m_deviceCount emptySlot)

/-- The content of `best` when `GetDevicesWith` reaches the global lock. -/
def candidatesWith (score : ScoreFn) (nvml : NvmlEnv) (p_bestFlags : Nat) (s : State) :
    List Int :=
  trimBest ((scoredSlotsWith score nvml p_bestFlags s).map Prod.fst)

/-- The content of `bestAndAvaialbe` after the availability pass of
`GetDevicesWith`. -/
def availableWith (score : ScoreFn) (nvml : NvmlEnv) (os : LockEnv) (p_bestFlags : Nat)
    (s : State) (log : LockLog) : List Int :=
  (trialLoop os (candidatesWith score nvml p_bestFlags s) (QueryNvmlData nvml s)
    (Acquire os .global (globalWait s p_bestFlags) log).2).1

/-- The double `GetDevicesWith` computes for the device with index `d`, from
its record after the refresh pass; `none` without such a record. -/
def scoreOfWith (score : ScoreFn) (nvml : NvmlEnv) (p_bestFlags : Nat) (s : State) (d : Int) :
    Option Dbl :=
  ((QueryNvmlData nvml s).m_procData.find? (fun pd => pd.deviceId == d)).map
    (score (effectiveFlags s p_bestFlags))

/-- The ranking of the eligible devices that `GetDevicesWith` builds, with the
scores: the records after the refresh pass, scored with the effective flags. -/
def rankingWith (score : ScoreFn) (nvml : NvmlEnv) (p_bestFlags : Nat) (s : State) :
    List Slot :=
  rankFoldWith (QueryNvmlData nvml s) (score (effectiveFlags s p_bestFlags))
    (QueryNvmlData nvml s).m_procData []

/-- Device `a` ranks before device `b` in `GetDevicesWith`: both are scored,
the double computed for `a` is at least that of `b`, and with equal doubles
`a` has the lower device index. -/
def RanksBeforeWith (score : ScoreFn) (nvml : NvmlEnv) (p_bestFlags : Nat) (s : State)
    (a b : Int) : Prop :=
  ∃ sa sb, scoreOfWith score nvml p_bestFlags s a = some sa ∧
    scoreOfWith score nvml p_bestFlags s b = some sb ∧
    Dbl.ge sa sb = true ∧ (sa = sb → a < b)

/-! ## A machine on which rounding decides the order

Two devices with the same cores and the same free memory: the first with 5
percent GPU utilization, the second with 6 percent memory utilization at the
time of scoring.  Without rounding both score `1299/1250`. -/

/-- The CUDA runtime of the machine with two devices. -/
def cudaTie : CudaEnv :=
  { deviceCount := some 2
    device := fun i =>
      { deviceProp := { major := 3, minor := 5, multiProcessorCount := 13,
                        pciBusID := i + 1, tccDriver := 1 }
        free := 5
        total := 10 } }

/-- NVML on that machine: the samples 5 and 0 percent for the first device, 0
and 8 percent for the second, which the moving average turns into 0 and 6. -/
def nvmlTie : NvmlEnv :=
  { initOk := true
    device := fun i =>
      { handle := true
        pciBus := some (i + 1)
        memory := some { total := 10, free := 5, used := 5 }
        utilization := some { gpu := [5, 0].getD i 0, memory := [0, 8].getD i 0 }
        sizeResult := true
        size := 0
        processInfo := none }
    currentProcessId := 1
    win32 := false }

/-- The selector of that machine after construction. -/
def stateTie : State := State.new cudaTie nvmlTie

/-! ## Theorems -/

/-! ### C6: no device -/

/-- C6: with an empty device-record list `GetDevices` returns exactly `[-1]`
for every requested count and flag set, and the log of mutex acquisitions
(global lock and device locks) and the object are left as they were. -/
theorem GetDevices_no_device (nvml : NvmlEnv) (os : LockEnv) (number : Int) (flags : Nat)
    (s : State) (log : LockLog) (h : s.m_procData = []) :
    (GetDevices nvml os number flags s log).result = .ok [-1] ∧
      (GetDevices nvml os number flags s log).log = log ∧
      (GetDevices nvml os number flags s log).state = s := by
  simp [GetDevices, h]

theorem GetDevices_result_nil (nvml : NvmlEnv) (os : LockEnv) (number : Int) (flags : Nat)
    (s : State) (log : LockLog) (h : s.m_procData = []) :
    (GetDevices nvml os number flags s log).result = .ok [-1] := by
  simp [GetDevices, h]

/-! ### Comparison of doubles -/

theorem Dbl.gt_trans {a b c : Dbl} (hab : Dbl.gt a b = true) (hbc : Dbl.gt b c = true) :
    Dbl.gt a c = true := by
  cases a <;> cases b <;> cases c <;> simp_all [Dbl.gt]
  exact lt_trans hbc hab

theorem Dbl.gt_ne_nan_left {a b : Dbl} (h : Dbl.gt a b = true) : a ≠ Dbl.nan := by
  cases a <;> cases b <;> simp_all [Dbl.gt]

theorem Dbl.ge_of_gt {a b : Dbl} (h : Dbl.gt a b = true) : Dbl.ge a b = true := by
  cases a <;> cases b <;> simp_all [Dbl.gt, Dbl.ge]
  exact le_of_lt h

theorem Dbl.ne_of_gt {a b : Dbl} (h : Dbl.gt a b = true) : a ≠ b := by
  cases a <;> cases b <;> simp_all [Dbl.gt]
  exact fun h' => absurd h (by simp [h'])

theorem Dbl.ge_of_not_gt {a b : Dbl} (ha : a ≠ Dbl.nan) (hb : b ≠ Dbl.nan)
    (h : Dbl.gt a b = false) : Dbl.ge b a = true := by
  cases a <;> cases b <;> simp_all [Dbl.gt, Dbl.ge]

theorem Dbl.gt_of_gt_of_ge {a b c : Dbl} (hab : Dbl.gt a b = true) (hbc : Dbl.ge b c = true) :
    Dbl.gt a c = true := by
  cases a <;> cases b <;> cases c <;> simp_all [Dbl.gt, Dbl.ge]
  exact lt_of_le_of_lt hbc hab

theorem Dbl.not_gt_of_ge {a b : Dbl} (h : Dbl.ge a b = true) : Dbl.gt b a = false := by
  cases a <;> cases b <;> simp_all [Dbl.gt, Dbl.ge]

/-! ### The insertion loop -/

theorem dropLast_append_replicate {α : Type} (l : List α) (a : α) (k : Nat) (hk : 1 ≤ k) :
    (l ++ List.replicate k a).dropLast = l ++ List.replicate (k - 1) a := by
  obtain ⟨j, rfl⟩ : ∃ j, k = j + 1 := ⟨k - 1, by omega⟩
  rw [List.replicate_succ', ← List.append_assoc, List.dropLast_concat]
  simp

theorem insertBest_of_gt (sc : Dbl) (d : Int) (k : Nat) (hk : 1 ≤ k)
    (hsc : Dbl.gt sc (Dbl.fin (-1)) = true) (R : List Slot) :
    insertBest sc d (R ++ List.replicate k emptySlot) =
      insertRanked (d, sc) R ++ List.replicate (k - 1) emptySlot := by
  induction R with
  | nil =>
    obtain ⟨j, rfl⟩ : ∃ j, k = j + 1 := ⟨k - 1, by omega⟩
    have h := dropLast_append_replicate ([] : List Slot) emptySlot (j + 1) (by omega)
    simp only [List.nil_append] at h
    simp only [List.nil_append, List.replicate_succ, emptySlot, insertBest, hsc, if_true,
      insertRanked, List.singleton_append, Nat.add_sub_cancel] at h ⊢
    rw [h]
  | cons x R ih =>
    obtain ⟨b, sc'⟩ := x
    by_cases hg : Dbl.gt sc sc' = true
    · have h := dropLast_append_replicate ((b, sc') :: R) emptySlot k hk
      simp only [List.cons_append] at h
      simp [insertBest, insertRanked, hg, h]
    · simp [insertBest, insertRanked, hg, ih]

theorem insertBest_of_not_gt (sc : Dbl) (d : Int) (k : Nat)
    (hsc : Dbl.gt sc (Dbl.fin (-1)) = false) (R : List Slot)
    (hR : ∀ x ∈ R, Dbl.gt x.2 (Dbl.fin (-1)) = true) :
    insertBest sc d (R ++ List.replicate k emptySlot) = R ++ List.replicate k emptySlot := by
  induction R with
  | nil =>
    induction k with
    | zero => simp [insertBest]
    | succ j ih =>
      simp only [List.nil_append, List.replicate_succ, emptySlot, insertBest, hsc] at ih ⊢
      simp [ih]
  | cons x R ih =>
    obtain ⟨b, sc'⟩ := x
    have hx : Dbl.gt sc' (Dbl.fin (-1)) = true := hR (b, sc') (by simp)
    have hg : Dbl.gt sc sc' = false := by
      by_contra hg
      have := Dbl.gt_trans (Bool.eq_true_of_not_eq_false hg) hx
      simp [hsc] at this
    have := ih (fun x hx => hR x (List.mem_cons_of_mem _ hx))
    simp [insertBest, hg, this]

theorem insertRanked_perm (new : Slot) (R : List Slot) :
    List.Perm (insertRanked new R) (new :: R) := by
  induction R with
  | nil => simp [insertRanked]
  | cons x R ih =>
    by_cases hg : Dbl.gt new.2 x.2 = true
    · simp [insertRanked, hg]
    · simp only [insertRanked, hg]
      exact ((List.Perm.cons x ih).trans (List.Perm.swap new x R))

theorem insertRanked_pairwise (new : Slot) (R : List Slot) (hR : R.Pairwise Before)
    (hnew : new.2 ≠ Dbl.nan) (hlt : ∀ x ∈ R, x.2 ≠ Dbl.nan ∧ x.1 < new.1) :
    (insertRanked new R).Pairwise Before := by
  induction R with
  | nil => simp [insertRanked]
  | cons x R ih =>
    rw [List.pairwise_cons] at hR
    by_cases hg : Dbl.gt new.2 x.2 = true
    · simp only [insertRanked, hg, if_true]
      refine List.Pairwise.cons ?_ (List.Pairwise.cons hR.1 hR.2)
      intro y hy
      have hgy : Dbl.gt new.2 y.2 = true := by
        rcases List.mem_cons.1 hy with rfl | hy
        · exact hg
        · exact Dbl.gt_of_gt_of_ge hg (hR.1 y hy).1
      exact ⟨Dbl.ge_of_gt hgy, fun h => absurd h (Dbl.ne_of_gt hgy)⟩
    · simp only [insertRanked, hg]
      refine List.Pairwise.cons ?_ (ih hR.2 (fun y hy => hlt y (List.mem_cons_of_mem _ hy)))
      intro y hy
      rcases List.mem_cons.1 ((insertRanked_perm new R).mem_iff.1 hy) with rfl | hy
      · have hx := hlt x (by simp)
        exact ⟨Dbl.ge_of_not_gt hnew hx.1 (by simpa using hg), fun _ => hx.2⟩
      · exact hR.1 y hy

/-! ### The scoring loop -/

theorem rankLoop_eq_rankFold (s : State) (w : Weights) (pds : List ProcessorData) :
    ∀ (R : List Slot) (k : Nat), pds.length ≤ k →
      (∀ x ∈ R, Dbl.gt x.2 (Dbl.fin (-1)) = true) →
      ∃ j, rankLoop s w pds (R ++ List.replicate k emptySlot) =
          rankFold s w pds R ++ List.replicate j emptySlot ∧
        (rankFold s w pds R).length + j = R.length + k := by
  induction pds with
  | nil => intro R k _ _; exact ⟨k, by simp [rankLoop, rankFold]⟩
  | cons pd rest ih =>
    intro R k hk hR
    simp only [List.length_cons] at hk
    by_cases ha : DeviceAllowed s pd.deviceId = true
    · by_cases hg : Dbl.gt (deviceScore w pd) (Dbl.fin (-1)) = true
      · have hins := insertBest_of_gt (deviceScore w pd) pd.deviceId k (by omega) hg R
        obtain ⟨j, h1, h2⟩ := ih (insertRanked (pd.deviceId, deviceScore w pd) R) (k - 1)
          (by omega) (by
            intro x hx
            rcases List.mem_cons.1 ((insertRanked_perm _ R).mem_iff.1 hx) with rfl | hx
            · exact hg
            · exact hR x hx)
        refine ⟨j, ?_, ?_⟩
        · simp only [rankLoop, ha, rankFold, eligible, hg, hins]
          simpa using h1
        · simp only [rankFold, eligible, ha, hg]
          have := (insertRanked_perm (pd.deviceId, deviceScore w pd) R).length_eq
          simp only [List.length_cons] at this
          simp only [Bool.and_self, if_true]
          omega
      · have hg' : Dbl.gt (deviceScore w pd) (Dbl.fin (-1)) = false := by simpa using hg
        have hins := insertBest_of_not_gt (deviceScore w pd) pd.deviceId k hg' R hR
        obtain ⟨j, h1, h2⟩ := ih R k (by omega) hR
        exact ⟨j, by simp [rankLoop, ha, rankFold, eligible, hg', hins, h1],
          by simp [rankFold, eligible, ha, hg', h2]⟩
    · have ha' : DeviceAllowed s pd.deviceId = false := by simpa using ha
      obtain ⟨j, h1, h2⟩ := ih R k (by omega) hR
      exact ⟨j, by simp [rankLoop, ha', rankFold, eligible, h1],
        by simp [rankFold, eligible, ha', h2]⟩

theorem rankFold_perm (s : State) (w : Weights) (pds : List ProcessorData) :
    ∀ R : List Slot, List.Perm (rankFold s w pds R)
      (R ++ (pds.filter (eligible s w)).map (fun pd => (pd.deviceId, deviceScore w pd))) := by
  induction pds with
  | nil => intro R; simp [rankFold]
  | cons pd rest ih =>
    intro R
    by_cases he : eligible s w pd = true
    · simp only [rankFold, he, if_true, List.filter_cons_of_pos, List.map_cons]
      refine (ih _).trans ?_
      refine ((insertRanked_perm _ R).append_right _).trans ?_
      simp only [List.cons_append]
      exact List.perm_middle.symm
    · have he' : eligible s w pd = false := by simpa using he
      simp only [rankFold, he', List.filter_cons, Bool.false_eq_true, if_false]
      exact ih R

theorem rankFold_pairwise (s : State) (w : Weights) (pds : List ProcessorData) :
    ∀ R : List Slot, R.Pairwise Before →
      (∀ x ∈ R, x.2 ≠ Dbl.nan ∧ ∀ pd ∈ pds, x.1 < pd.deviceId) →
      pds.Pairwise (fun a b => a.deviceId < b.deviceId) →
      (rankFold s w pds R).Pairwise Before := by
  induction pds with
  | nil => intro R hR _ _; simpa [rankFold] using hR
  | cons pd rest ih =>
    intro R hR hlt hp
    rw [List.pairwise_cons] at hp
    by_cases he : eligible s w pd = true
    · simp only [rankFold, he, if_true]
      have hg : Dbl.gt (deviceScore w pd) (Dbl.fin (-1)) = true := by
        simp only [eligible, Bool.and_eq_true] at he
        exact he.2
      refine ih _ (insertRanked_pairwise _ R hR (Dbl.gt_ne_nan_left hg)
        (fun x hx => ⟨(hlt x hx).1, (hlt x hx).2 pd (by simp)⟩)) ?_ hp.2
      intro x hx
      rcases List.mem_cons.1 ((insertRanked_perm _ R).mem_iff.1 hx) with rfl | hx
      · exact ⟨Dbl.gt_ne_nan_left hg, fun pd' hpd' => hp.1 pd' hpd'⟩
      · exact ⟨(hlt x hx).1, fun pd' hpd' => (hlt x hx).2 pd' (List.mem_cons_of_mem _ hpd')⟩
    · have he' : eligible s w pd = false := by simpa using he
      simp only [rankFold, he', Bool.false_eq_true, if_false]
      exact ih R hR
        (fun x hx => ⟨(hlt x hx).1, fun pd' hpd' => (hlt x hx).2 pd' (List.mem_cons_of_mem _ hpd')⟩)
        hp.2

/-! ### What a refresh pass leaves alone -/

theorem State.Frame.refl (s : State) : State.Frame s s := by
  simp [State.Frame]

theorem State.Frame.trans {s s' s'' : State} (h : State.Frame s s') (h' : State.Frame s' s'') :
    State.Frame s s'' := by
  obtain ⟨a1, a2, a3, a4, a5, a6, a7⟩ := h
  obtain ⟨b1, b2, b3, b4, b5, b6, b7⟩ := h'
  exact ⟨b1.trans a1, b2.trans a2, b3.trans a3, b4.trans a4, b5.trans a5, b6.trans a6,
    b7.trans a7⟩

theorem map_deviceId_modify (f : ProcessorData → ProcessorData)
    (hf : ∀ pd, (f pd).deviceId = pd.deviceId) (l : List ProcessorData) (k : Nat) :
    (l.modify f k).map (fun pd => pd.deviceId) = l.map (fun pd => pd.deviceId) := by
  induction l generalizing k with
  | nil => cases k <;> simp [List.modify]
  | cons x l ih =>
    cases k with
    | zero => simp [List.modify, hf]
    | succ k => simpa [List.modify] using ih k

theorem updatePd_frame (s : State) (k : Nat) (f : ProcessorData → ProcessorData)
    (hf : ∀ pd, (f pd).deviceId = pd.deviceId) : State.Frame s (updatePd s k f) := by
  simp [State.Frame, updatePd, map_deviceId_modify f hf]

theorem queryCount_frame (s : State) (n : Nat) :
    State.Frame s { s with m_queryCount := n } := by
  simp [State.Frame]

theorem queryStep_frame (nvml : NvmlEnv) (i : Nat) (s : State) :
    State.Frame s (queryStep nvml i s).state := by
  unfold queryStep
  simp only []
  repeat' split
  all_goals simp [State.Frame, QueryStep.state, updatePd, map_deviceId_modify]

theorem queryLoop_frame (nvml : NvmlEnv) (is : List Nat) :
    ∀ s : State, State.Frame s (queryLoop nvml is s).state := by
  induction is with
  | nil => intro s; exact State.Frame.refl s
  | cons i rest ih =>
    intro s
    have h := queryStep_frame nvml i s
    unfold queryLoop
    cases hq : queryStep nvml i s with
    | next s' =>
      rw [hq] at h
      exact h.trans (ih s')
    | back s' =>
      rw [hq] at h
      exact h

theorem QueryNvmlData_frame (nvml : NvmlEnv) (s : State) :
    State.Frame s (QueryNvmlData nvml s) := by
  unfold QueryNvmlData
  split
  · exact State.Frame.refl s
  · have h := queryLoop_frame nvml (List.range s.m_deviceCount) s
    cases hq : queryLoop nvml (List.range s.m_deviceCount) s with
    | next s' =>
      rw [hq] at h
      exact h.trans (by simp [State.Frame, QueryStep.state])
    | back s' =>
      rw [hq] at h
      exact h

theorem DeviceAllowed_frame {s s' : State} (h : State.Frame s s') (d : Int) :
    DeviceAllowed s' d = DeviceAllowed s d := by
  simp [DeviceAllowed, h.1]

theorem WF_frame {s s' : State} (h : State.Frame s s') (hs : s.WF) : s'.WF := by
  obtain ⟨_, h2, _, _, _, _, h7⟩ := h
  have hlen : s'.m_procData.length = s.m_procData.length := by
    simpa using congrArg List.length h7
  exact ⟨by rw [h2, hs.1, hlen], by rw [h7, hlen]; exact hs.2⟩

/-! ### Membership in the ranking buffers -/

theorem insertBest_mem (sc : Dbl) (d : Int) (L : List Slot) (x : Slot)
    (hx : x ∈ insertBest sc d L) : x ∈ L ∨ x = (d, sc) := by
  induction L with
  | nil => simp [insertBest] at hx
  | cons y L ih =>
    obtain ⟨b, sc'⟩ := y
    by_cases hg : Dbl.gt sc sc' = true
    · simp only [insertBest, hg, if_true] at hx
      rcases List.mem_cons.1 hx with hx | hx
      · exact Or.inr hx
      · exact Or.inl (List.mem_of_mem_dropLast hx)
    · simp only [insertBest, hg] at hx
      rcases List.mem_cons.1 hx with hx | hx
      · exact Or.inl (by simp [hx])
      · rcases ih hx with h | h
        · exact Or.inl (List.mem_cons_of_mem _ h)
        · exact Or.inr h

theorem rankLoop_mem (s : State) (w : Weights) (pds : List ProcessorData) :
    ∀ (L : List Slot) (x : Slot), x ∈ rankLoop s w pds L →
      x ∈ L ∨ ∃ pd ∈ pds, DeviceAllowed s pd.deviceId = true ∧
        x = (pd.deviceId, deviceScore w pd) := by
  induction pds with
  | nil => intro L x hx; exact Or.inl (by simpa [rankLoop] using hx)
  | cons pd rest ih =>
    intro L x hx
    by_cases ha : DeviceAllowed s pd.deviceId = true
    · simp only [rankLoop, ha, Bool.not_true, Bool.false_eq_true, if_false] at hx
      rcases ih _ x hx with h | ⟨pd', hpd', h⟩
      · rcases insertBest_mem _ _ _ _ h with h | h
        · exact Or.inl h
        · exact Or.inr ⟨pd, by simp, ha, h⟩
      · exact Or.inr ⟨pd', List.mem_cons_of_mem _ hpd', h⟩
    · have ha' : DeviceAllowed s pd.deviceId = false := by simpa using ha
      simp only [rankLoop, ha', Bool.not_false, if_true] at hx
      rcases ih _ x hx with h | ⟨pd', hpd', h⟩
      · exact Or.inl h
      · exact Or.inr ⟨pd', List.mem_cons_of_mem _ hpd', h⟩

theorem trimBest_subset (l : List Int) (x : Int) (hx : x ∈ trimBest l) : x ∈ l := by
  cases l with
  | nil => simp [trimBest] at hx
  | cons b rest =>
    simp only [trimBest, List.mem_cons] at hx
    rcases hx with rfl | hx
    · simp
    · exact List.mem_cons_of_mem _ ((List.rdropWhile_prefix _ rest).subset hx)

/-! ### The availability pass -/

theorem trialLoop_sublist (os : LockEnv) (l : List Int) :
    ∀ (s : State) (log : LockLog), List.Sublist (trialLoop os l s log).1 l := by
  induction l with
  | nil => intro s log; simp [trialLoop]
  | cons i rest ih =>
    intro s log
    simp only [trialLoop]
    split
    · exact (ih _ _).cons₂ i
    · exact (ih _ _).cons i

theorem trialLoop_unavailable (os : LockEnv) (d : Int) (hd : 0 ≤ d)
    (h : ∀ log, os.acquire log (.device d) false = false) (l : List Int) :
    ∀ (s : State) (log : LockLog), d ∉ (trialLoop os l s log).1 := by
  induction l with
  | nil => intro s log; simp [trialLoop]
  | cons i rest ih =>
    intro s log
    simp only [trialLoop]
    split
    · rename_i hok
      intro hmem
      rcases List.mem_cons.1 hmem with rfl | hmem
      · simp [LockDevice, Acquire, h, not_lt.2 hd] at hok
      · exact ih _ _ hmem
    · exact ih _ _

theorem LockDevice_trial_state (os : LockEnv) (d : Int) (s : State) (log : LockLog) :
    (LockDevice os d true s log).2.1 = s := by
  unfold LockDevice
  split
  · rfl
  · by_cases h : (Acquire os (LockName.device d) false log).1 = true <;> simp [h]

theorem trialLoop_state (os : LockEnv) (l : List Int) :
    ∀ (s : State) (log : LockLog), (trialLoop os l s log).2.1 = s := by
  induction l with
  | nil => intro s log; simp [trialLoop]
  | cons i rest ih =>
    intro s log
    simp only [trialLoop]
    rw [ih, LockDevice_trial_state]

/-! ### The shape of the result of `GetDevices` -/

theorem effectiveFlags_frame {s s' : State} (h : State.Frame s s') (flags : Nat) :
    effectiveFlags s' flags = effectiveFlags s flags := by
  simp [effectiveFlags, h.2.2.1]

theorem GetDevices_result (nvml : NvmlEnv) (os : LockEnv) (number : Int) (flags : Nat)
    (s : State) (log : LockLog) (hne : s.m_procData ≠ []) :
    (GetDevices nvml os number flags s log).result =
      if os.acquire log .global (globalWait s flags) = true then
        .ok (if (available nvml os flags s log).take (toSizeT (requested s number)) = [] then [-1]
          else (available nvml os flags s log).take (toSizeT (requested s number)))
      else .error .RuntimeError := by
  have hf := effectiveFlags_frame (QueryNvmlData_frame nvml s) flags
  have hlen : s.m_procData.length ≠ 0 := by simpa using hne
  unfold GetDevices
  simp only [hlen, if_false, hf]
  by_cases hg : os.acquire log .global (globalWait s flags) = true
  · have hg' : os.acquire log .global
        (effectiveFlags s flags &&& bestGpuExclusiveLock != 0) = true := hg
    simp only [Acquire, hg, hg', Bool.not_true, Bool.false_eq_true, if_false, if_true]
    have htake : ∀ (t : List Int) (n : Nat),
        (if t.length > n then t.take n else t) = t.take n := by
      intro t n
      split
      · rfl
      · rw [List.take_of_length_le (by omega)]
    simp only [htake, List.length_eq_zero, available, candidates, scoredSlots, requested,
      globalWait, Acquire, hg', emptySlot]
  · have hg' : os.acquire log .global
        (effectiveFlags s flags &&& bestGpuExclusiveLock != 0) = false := by
      simpa [globalWait] using hg
    simp [Acquire, hg, hg']

/-! ### The candidates under well-formedness -/

theorem rdropWhile_append_replicate (l : List Int) (j : Nat) :
    (l ++ List.replicate j (-1)).rdropWhile (fun x => x == -1) =
      l.rdropWhile (fun x => x == -1) := by
  induction j with
  | zero => simp
  | succ j ih =>
    rw [List.replicate_succ', ← List.append_assoc, List.rdropWhile_concat_pos _ _ _ (by simp), ih]

theorem rdropWhile_of_ne (l : List Int) (hl : ∀ x ∈ l, x ≠ -1) :
    l.rdropWhile (fun x => x == -1) = l := by
  rw [List.rdropWhile_eq_self_iff]
  intro hne
  simpa using hl _ (List.getLast_mem hne)

theorem trimBest_ranked (R : List Int) (j : Nat) (hR : ∀ x ∈ R, x ≠ -1) (hj : R = [] → 1 ≤ j) :
    trimBest (R ++ List.replicate j (-1)) = if R = [] then [-1] else R := by
  cases R with
  | nil =>
    obtain ⟨i, rfl⟩ : ∃ i, j = i + 1 := ⟨j - 1, by have := hj rfl; omega⟩
    have h := rdropWhile_append_replicate [] i
    simp only [List.nil_append, List.rdropWhile_nil] at h
    simp [trimBest, List.replicate_succ, h]
  | cons b R =>
    have h := rdropWhile_append_replicate R j
    rw [rdropWhile_of_ne R (fun x hx => hR x (List.mem_cons_of_mem _ hx))] at h
    simp [trimBest, h]

theorem WF_deviceId_nonneg {s : State} (hs : s.WF) {pd : ProcessorData}
    (hpd : pd ∈ s.m_procData) : 0 ≤ pd.deviceId := by
  have h : pd.deviceId ∈ s.m_procData.map (fun pd => pd.deviceId) :=
    List.mem_map_of_mem _ hpd
  rw [hs.2] at h
  obtain ⟨i, _, hi⟩ := List.mem_map.1 h
  rw [← hi]
  exact Int.ofNat_nonneg i

theorem WF_pairwise {s : State} (hs : s.WF) :
    s.m_procData.Pairwise (fun a b => a.deviceId < b.deviceId) := by
  have h : (s.m_procData.map (fun pd => pd.deviceId)).Pairwise (fun a b => a < b) := by
    rw [hs.2, List.pairwise_map]
    exact (List.pairwise_lt_range _).imp (fun h => Int.ofNat_lt.2 h)
  exact List.pairwise_map.1 h

theorem ranking_mem {nvml : NvmlEnv} {flags : Nat} {s : State} {x : Slot}
    (hx : x ∈ ranking nvml flags s) :
    ∃ pd ∈ (QueryNvmlData nvml s).m_procData,
      eligible (QueryNvmlData nvml s) (adjustWeights (effectiveFlags s flags)) pd = true ∧
      x = (pd.deviceId, deviceScore (adjustWeights (effectiveFlags s flags)) pd) := by
  have h := (rankFold_perm (QueryNvmlData nvml s) (adjustWeights (effectiveFlags s flags))
    (QueryNvmlData nvml s).m_procData []).mem_iff.1 hx
  simp only [List.nil_append, List.mem_map, List.mem_filter] at h
  obtain ⟨pd, ⟨hpd, he⟩, rfl⟩ := h
  exact ⟨pd, hpd, he, rfl⟩

theorem candidates_eq (nvml : NvmlEnv) (flags : Nat) (s : State) (hs : s.WF)
    (hne : s.m_procData ≠ []) :
    candidates nvml flags s =
      if (ranking nvml flags s).map Prod.fst = [] then [-1]
      else (ranking nvml flags s).map Prod.fst := by
  have hs' : (QueryNvmlData nvml s).WF := WF_frame (QueryNvmlData_frame nvml s) hs
  obtain ⟨j, h1, h2⟩ := rankLoop_eq_rankFold (QueryNvmlData nvml s)
    (adjustWeights (effectiveFlags s flags)) (QueryNvmlData nvml s).m_procData []
    (QueryNvmlData nvml s).m_deviceCount (by rw [hs'.1]) (by simp)
  simp only [List.nil_append] at h1
  have hpos : 1 ≤ (QueryNvmlData nvml s).m_deviceCount := by
    rw [(QueryNvmlData_frame nvml s).2.1, hs.1]
    exact List.length_pos.2 hne
  unfold candidates scoredSlots
  rw [h1, List.map_append, List.map_replicate]
  refine trimBest_ranked _ j ?_ ?_
  · intro x hx
    obtain ⟨y, hy, rfl⟩ := List.mem_map.1 hx
    obtain ⟨pd, hpd, _, rfl⟩ := ranking_mem hy
    have := WF_deviceId_nonneg hs' hpd
    simp only
    omega
  · intro hnil
    have : (rankFold (QueryNvmlData nvml s) (adjustWeights (effectiveFlags s flags))
        (QueryNvmlData nvml s).m_procData []).length = 0 := by
      simpa using congrArg List.length hnil
    simp only [List.length_nil] at h2
    omega

theorem ranking_pairwise (nvml : NvmlEnv) (flags : Nat) (s : State) (hs : s.WF) :
    (ranking nvml flags s).Pairwise Before :=
  rankFold_pairwise _ _ _ [] List.Pairwise.nil (by simp)
    (WF_pairwise (WF_frame (QueryNvmlData_frame nvml s) hs))

theorem GetDevices_ok_cases (nvml : NvmlEnv) (os : LockEnv) (number : Int) (flags : Nat)
    (s : State) (log : LockLog) (best : List Int)
    (h : (GetDevices nvml os number flags s log).result = .ok best) :
    best = [-1] ∨ (s.m_procData ≠ [] ∧ os.acquire log .global (globalWait s flags) = true ∧
      best = (available nvml os flags s log).take (toSizeT (requested s number)) ∧ best ≠ []) := by
  by_cases hne : s.m_procData = []
  · have := GetDevices_result_nil nvml os number flags s log hne
    rw [this] at h
    exact Or.inl (by simpa using h.symm)
  · rw [GetDevices_result nvml os number flags s log hne] at h
    by_cases hg : os.acquire log .global (globalWait s flags) = true
    · simp only [hg, if_true, Except.ok.injEq] at h
      by_cases hnil : (available nvml os flags s log).take (toSizeT (requested s number)) = []
      · simp only [hnil, if_true] at h
        exact Or.inl h.symm
      · simp only [hnil, if_false] at h
        exact Or.inr ⟨hne, hg, h.symm, by rw [← h]; exact hnil⟩
    · simp [hg] at h

theorem find?_deviceId (l : List ProcessorData)
    (hl : l.Pairwise (fun a b => a.deviceId < b.deviceId)) (pd : ProcessorData) (hpd : pd ∈ l) :
    l.find? (fun x => x.deviceId == pd.deviceId) = some pd := by
  induction l with
  | nil => simp at hpd
  | cons x l ih =>
    rw [List.pairwise_cons] at hl
    rcases List.mem_cons.1 hpd with rfl | hmem
    · simp
    · have hlt := hl.1 pd hmem
      have hne : (x.deviceId == pd.deviceId) = false := by
        simpa using ne_of_lt hlt
      rw [List.find?_cons, hne]
      exact ih hl.2 hmem

theorem scoreOf_ranking (nvml : NvmlEnv) (flags : Nat) (s : State) (hs : s.WF) (x : Slot)
    (hx : x ∈ ranking nvml flags s) : scoreOf nvml flags s x.1 = some x.2 := by
  obtain ⟨pd, hpd, _, rfl⟩ := ranking_mem hx
  have hs' : (QueryNvmlData nvml s).WF := WF_frame (QueryNvmlData_frame nvml s) hs
  simp [scoreOf, find?_deviceId _ (WF_pairwise hs') pd hpd]

theorem available_sublist (nvml : NvmlEnv) (os : LockEnv) (flags : Nat) (s : State)
    (log : LockLog) : List.Sublist (available nvml os flags s log) (candidates nvml flags s) :=
  trialLoop_sublist os _ _ _

theorem ranking_ids_pairwise (nvml : NvmlEnv) (flags : Nat) (s : State) (hs : s.WF) :
    ((ranking nvml flags s).map Prod.fst).Pairwise (RanksBefore nvml flags s) := by
  rw [List.pairwise_map]
  refine (ranking_pairwise nvml flags s hs).imp_of_mem ?_
  intro x y hx hy hxy
  exact ⟨x.2, y.2, scoreOf_ranking nvml flags s hs x hx,
    scoreOf_ranking nvml flags s hs y hy, hxy.1, hxy.2⟩

/-! ### The ranking for an arbitrary score computation -/

theorem rankLoopWith_eq_rankFoldWith (s : State) (sc : ProcessorData → Dbl)
    (pds : List ProcessorData) :
    ∀ (R : List Slot) (k : Nat), pds.length ≤ k →
      (∀ x ∈ R, Dbl.gt x.2 (Dbl.fin (-1)) = true) →
      ∃ j, rankLoopWith s sc pds (R ++ List.replicate k emptySlot) =
          rankFoldWith s sc pds R ++ List.replicate j emptySlot ∧
        (rankFoldWith s sc pds R).length + j = R.length + k := by
  induction pds with
  | nil => intro R k _ _; exact ⟨k, by simp [rankLoopWith, rankFoldWith]⟩
  | cons pd rest ih =>
    intro R k hk hR
    simp only [List.length_cons] at hk
    by_cases ha : DeviceAllowed s pd.deviceId = true
    · by_cases hg : Dbl.gt (sc pd) (Dbl.fin (-1)) = true
      · have hins := insertBest_of_gt (sc pd) pd.deviceId k (by omega) hg R
        obtain ⟨j, h1, h2⟩ := ih (insertRanked (pd.deviceId, sc pd) R) (k - 1)
          (by omega) (by
            intro x hx
            rcases List.mem_cons.1 ((insertRanked_perm _ R).mem_iff.1 hx) with rfl | hx
            · exact hg
            · exact hR x hx)
        refine ⟨j, ?_, ?_⟩
        · simp only [rankLoopWith, ha, rankFoldWith, eligibleWith, hg, hins]
          simpa using h1
        · simp only [rankFoldWith, eligibleWith, ha, hg]
          have := (insertRanked_perm (pd.deviceId, sc pd) R).length_eq
          simp only [List.length_cons] at this
          simp only [Bool.and_self, if_true]
          omega
      · have hg' : Dbl.gt (sc pd) (Dbl.fin (-1)) = false := by simpa using hg
        have hins := insertBest_of_not_gt (sc pd) pd.deviceId k hg' R hR
        obtain ⟨j, h1, h2⟩ := ih R k (by omega) hR
        exact ⟨j, by simp [rankLoopWith, ha, rankFoldWith, eligibleWith, hg', hins, h1],
          by simp [rankFoldWith, eligibleWith, ha, hg', h2]⟩
    · have ha' : DeviceAllowed s pd.deviceId = false := by simpa using ha
      obtain ⟨j, h1, h2⟩ := ih R k (by omega) hR
      exact ⟨j, by simp [rankLoopWith, ha', rankFoldWith, eligibleWith, h1],
        by simp [rankFoldWith, eligibleWith, ha', h2]⟩

theorem rankFoldWith_perm (s : State) (sc : ProcessorData → Dbl) (pds : List ProcessorData) :
    ∀ R : List Slot, List.Perm (rankFoldWith s sc pds R)
      (R ++ (pds.filter (eligibleWith s sc)).map (fun pd => (pd.deviceId, sc pd))) := by
  induction pds with
  | nil => intro R; simp [rankFoldWith]
  | cons pd rest ih =>
    intro R
    by_cases he : eligibleWith s sc pd = true
    · simp only [rankFoldWith, he, if_true, List.filter_cons_of_pos, List.map_cons]
      refine (ih _).trans ?_
      refine ((insertRanked_perm _ R).append_right _).trans ?_
      simp only [List.cons_append]
      exact List.perm_middle.symm
    · have he' : eligibleWith s sc pd = false := by simpa using he
      simp only [rankFoldWith, he', List.filter_cons, Bool.false_eq_true, if_false]
      exact ih R

theorem rankFoldWith_pairwise (s : State) (sc : ProcessorData → Dbl) (pds : List ProcessorData) :
    ∀ R : List Slot, R.Pairwise Before →
      (∀ x ∈ R, x.2 ≠ Dbl.nan ∧ ∀ pd ∈ pds, x.1 < pd.deviceId) →
      pds.Pairwise (fun a b => a.deviceId < b.deviceId) →
      (rankFoldWith s sc pds R).Pairwise Before := by
  induction pds with
  | nil => intro R hR _ _; simpa [rankFoldWith] using hR
  | cons pd rest ih =>
    intro R hR hlt hp
    rw [List.pairwise_cons] at hp
    by_cases he : eligibleWith s sc pd = true
    · simp only [rankFoldWith, he, if_true]
      have hg : Dbl.gt (sc pd) (Dbl.fin (-1)) = true := by
        simp only [eligibleWith, Bool.and_eq_true] at he
        exact he.2
      refine ih _ (insertRanked_pairwise _ R hR (Dbl.gt_ne_nan_left hg)
        (fun x hx => ⟨(hlt x hx).1, (hlt x hx).2 pd (by simp)⟩)) ?_ hp.2
      intro x hx
      rcases List.mem_cons.1 ((insertRanked_perm _ R).mem_iff.1 hx) with rfl | hx
      · exact ⟨Dbl.gt_ne_nan_left hg, fun pd' hpd' => hp.1 pd' hpd'⟩
      · exact ⟨(hlt x hx).1, fun pd' hpd' => (hlt x hx).2 pd' (List.mem_cons_of_mem _ hpd')⟩
    · have he' : eligibleWith s sc pd = false := by simpa using he
      simp only [rankFoldWith, he', Bool.false_eq_true, if_false]
      exact ih R hR
        (fun x hx => ⟨(hlt x hx).1, fun pd' hpd' => (hlt x hx).2 pd' (List.mem_cons_of_mem _ hpd')⟩)
        hp.2

theorem GetDevicesWith_result_nil (score : ScoreFn) (nvml : NvmlEnv) (os : LockEnv)
    (number : Int) (flags : Nat) (s : State) (log : LockLog) (h : s.m_procData = []) :
    (GetDevicesWith score nvml os number flags s log).result = .ok [-1] := by
  simp [GetDevicesWith, h]

theorem GetDevicesWith_result (score : ScoreFn) (nvml : NvmlEnv) (os : LockEnv)
    (number : Int) (flags : Nat) (s : State) (log : LockLog) (hne : s.m_procData ≠ []) :
    (GetDevicesWith score nvml os number flags s log).result =
      if os.acquire log .global (globalWait s flags) = true then
        .ok (if (availableWith score nvml os flags s log).take (toSizeT (requested s number)) = []
          then [-1]
          else (availableWith score nvml os flags s log).take (toSizeT (requested s number)))
      else .error .RuntimeError := by
  have hf := effectiveFlags_frame (QueryNvmlData_frame nvml s) flags
  have hlen : s.m_procData.length ≠ 0 := by simpa using hne
  unfold GetDevicesWith
  simp only [hlen, if_false, hf]
  by_cases hg : os.acquire log .global (globalWait s flags) = true
  · have hg' : os.acquire log .global
        (effectiveFlags s flags &&& bestGpuExclusiveLock != 0) = true := hg
    simp only [Acquire, hg, hg', Bool.not_true, Bool.false_eq_true, if_false, if_true]
    have htake : ∀ (t : List Int) (n : Nat),
        (if t.length > n then t.take n else t) = t.take n := by
      intro t n
      split
      · rfl
      · rw [List.take_of_length_le (by omega)]
    simp only [htake, List.length_eq_zero, availableWith, candidatesWith, scoredSlotsWith,
      requested, globalWait, Acquire, hg', emptySlot]
  · have hg' : os.acquire log .global
        (effectiveFlags s flags &&& bestGpuExclusiveLock != 0) = false := by
      simpa [globalWait] using hg
    simp [Acquire, hg, hg']

theorem rankingWith_mem {score : ScoreFn} {nvml : NvmlEnv} {flags : Nat} {s : State} {x : Slot}
    (hx : x ∈ rankingWith score nvml flags s) :
    ∃ pd ∈ (QueryNvmlData nvml s).m_procData,
      eligibleWith (QueryNvmlData nvml s) (score (effectiveFlags s flags)) pd = true ∧
      x = (pd.deviceId, score (effectiveFlags s flags) pd) := by
  have h := (rankFoldWith_perm (QueryNvmlData nvml s) (score (effectiveFlags s flags))
    (QueryNvmlData nvml s).m_procData []).mem_iff.1 hx
  simp only [List.nil_append, List.mem_map, List.mem_filter] at h
  obtain ⟨pd, ⟨hpd, he⟩, rfl⟩ := h
  exact ⟨pd, hpd, he, rfl⟩

theorem candidatesWith_eq (score : ScoreFn) (nvml : NvmlEnv) (flags : Nat) (s : State) (hs : s.WF)
    (hne : s.m_procData ≠ []) :
    candidatesWith score nvml flags s =
      if (rankingWith score nvml flags s).map Prod.fst = [] then [-1]
      else (rankingWith score nvml flags s).map Prod.fst := by
  have hs' : (QueryNvmlData nvml s).WF := WF_frame (QueryNvmlData_frame nvml s) hs
  obtain ⟨j, h1, h2⟩ := rankLoopWith_eq_rankFoldWith (QueryNvmlData nvml s)
    (score (effectiveFlags s flags)) (QueryNvmlData nvml s).m_procData []
    (QueryNvmlData nvml s).m_deviceCount (by rw [hs'.1]) (by simp)
  simp only [List.nil_append] at h1
  have hpos : 1 ≤ (QueryNvmlData nvml s).m_deviceCount := by
    rw [(QueryNvmlData_frame nvml s).2.1, hs.1]
    exact List.length_pos.2 hne
  unfold candidatesWith scoredSlotsWith
  rw [h1, List.map_append, List.map_replicate]
  refine trimBest_ranked _ j ?_ ?_
  · intro x hx
    obtain ⟨y, hy, rfl⟩ := List.mem_map.1 hx
    obtain ⟨pd, hpd, _, rfl⟩ := rankingWith_mem hy
    have := WF_deviceId_nonneg hs' hpd
    simp only
    omega
  · intro hnil
    have : (rankFoldWith (QueryNvmlData nvml s) (score (effectiveFlags s flags))
        (QueryNvmlData nvml s).m_procData []).length = 0 := by
      simpa using congrArg List.length hnil
    simp only [List.length_nil] at h2
    omega

theorem rankingWith_pairwise (score : ScoreFn) (nvml : NvmlEnv) (flags : Nat) (s : State)
    (hs : s.WF) :
    (rankingWith score nvml flags s).Pairwise Before :=
  rankFoldWith_pairwise _ _ _ [] List.Pairwise.nil (by simp)
    (WF_pairwise (WF_frame (QueryNvmlData_frame nvml s) hs))

theorem GetDevicesWith_ok_cases (score : ScoreFn) (nvml : NvmlEnv) (os : LockEnv)
    (number : Int) (flags : Nat) (s : State) (log : LockLog) (best : List Int)
    (h : (GetDevicesWith score nvml os number flags s log).result = .ok best) :
    best = [-1] ∨ (s.m_procData ≠ [] ∧ os.acquire log .global (globalWait s flags) = true ∧
      best = (availableWith score nvml os flags s log).take (toSizeT (requested s number)) ∧
      best ≠ []) := by
  by_cases hne : s.m_procData = []
  · have := GetDevicesWith_result_nil score nvml os number flags s log hne
    rw [this] at h
    exact Or.inl (by simpa using h.symm)
  · rw [GetDevicesWith_result score nvml os number flags s log hne] at h
    by_cases hg : os.acquire log .global (globalWait s flags) = true
    · simp only [hg, if_true, Except.ok.injEq] at h
      by_cases hnil :
          (availableWith score nvml os flags s log).take (toSizeT (requested s number)) = []
      · simp only [hnil, if_true] at h
        exact Or.inl h.symm
      · simp only [hnil, if_false] at h
        exact Or.inr ⟨hne, hg, h.symm, by rw [← h]; exact hnil⟩
    · simp [hg] at h

theorem scoreOfWith_rankingWith (score : ScoreFn) (nvml : NvmlEnv) (flags : Nat) (s : State)
    (hs : s.WF) (x : Slot) (hx : x ∈ rankingWith score nvml flags s) :
    scoreOfWith score nvml flags s x.1 = some x.2 := by
  obtain ⟨pd, hpd, _, rfl⟩ := rankingWith_mem hx
  have hs' : (QueryNvmlData nvml s).WF := WF_frame (QueryNvmlData_frame nvml s) hs
  simp [scoreOfWith, find?_deviceId _ (WF_pairwise hs') pd hpd]

theorem availableWith_sublist (score : ScoreFn) (nvml : NvmlEnv) (os : LockEnv) (flags : Nat)
    (s : State) (log : LockLog) :
    List.Sublist (availableWith score nvml os flags s log)
      (candidatesWith score nvml flags s) :=
  trialLoop_sublist os _ _ _

theorem rankingWith_ids_pairwise (score : ScoreFn) (nvml : NvmlEnv) (flags : Nat) (s : State)
    (hs : s.WF) :
    ((rankingWith score nvml flags s).map Prod.fst).Pairwise
      (RanksBeforeWith score nvml flags s) := by
  rw [List.pairwise_map]
  refine (rankingWith_pairwise score nvml flags s hs).imp_of_mem ?_
  intro x y hx hy hxy
  exact ⟨x.2, y.2, scoreOfWith_rankingWith score nvml flags s hs x hx,
    scoreOfWith_rankingWith score nvml flags s hs y hy, hxy.1, hxy.2⟩

theorem rankingWith_ids_perm (score : ScoreFn) (nvml : NvmlEnv) (flags : Nat) (s : State) :
    List.Perm ((rankingWith score nvml flags s).map Prod.fst)
      (((QueryNvmlData nvml s).m_procData.filter
        (eligibleWith (QueryNvmlData nvml s) (score (effectiveFlags s flags)))).map
        (fun pd => pd.deviceId)) := by
  have h := (rankFoldWith_perm (QueryNvmlData nvml s) (score (effectiveFlags s flags))
    (QueryNvmlData nvml s).m_procData []).map Prod.fst
  simpa [rankingWith, Function.comp_def] using h

theorem rankLoopWith_exactScore (s : State) (bestFlags : Nat) (pds : List ProcessorData) :
    ∀ slots : List Slot, rankLoopWith s (exactScore bestFlags) pds slots =
      rankLoop s (adjustWeights bestFlags) pds slots := by
  induction pds with
  | nil => intro slots; rfl
  | cons pd rest ih =>
    intro slots
    simp only [rankLoopWith, rankLoop, ih]
    rfl

theorem GetDevicesWith_exactScore (nvml : NvmlEnv) (os : LockEnv) (number : Int) (flags : Nat)
    (s : State) (log : LockLog) :
    GetDevicesWith exactScore nvml os number flags s log =
      GetDevices nvml os number flags s log := by
  unfold GetDevicesWith GetDevices
  simp only [rankLoopWith_exactScore]

/-- The scores of the two devices of `stateTie` when `GetDevices` ranks them:
equal without rounding, different in machine arithmetic. -/
theorem machineScore_stateTie :
    (QueryNvmlData nvmlTie stateTie).m_procData.map (exactScore 0) =
        [Dbl.fin (1299 / 1250), Dbl.fin (1299 / 1250)] ∧
      (QueryNvmlData nvmlTie stateTie).m_procData.map (machineScore 0) =
        [Dbl.fin (557916257 / 2 ^ 29), Dbl.fin (2340070389238989 / 2 ^ 51)] := by
  decide!

/-- Known values of the two formats: one third and one tenth as `float`, one
tenth as `double`, and the ties at `2 ^ 24 + 1` and `2 ^ 24 + 3`, which go to
the even significand. -/
theorem roundNearestEven_values :
    binary32 (1 / 3) = 11184811 / 2 ^ 25 ∧ binary32 (1 / 10) = 13421773 / 2 ^ 27 ∧
      binary64 (1 / 10) = 3602879701896397 / 2 ^ 55 ∧
      binary32 16777217 = 16777216 ∧ binary32 16777219 = 16777220 ∧
      binary32 (-16777217) = -16777216 ∧ binary64 (2 ^ 53 + 1) = 2 ^ 53 ∧
      roundNearestEven 3 (9 / 2) = 4 ∧ roundNearestEven 3 (11 / 2) = 6 := by
  decide!

/-! ### C1: the result is ordered by score -/

/-- C1: whatever computes the score (`score` is any function from the flags in
effect and a device record to a double: `machineScore` for the `float` and
`double` arithmetic of the program, `exactScore` for the value without
rounding), in the list `GetDevices` returns, of two physical devices the one
at the earlier position has a score at least that of the later one, and with
equal scores it has the lower device index. -/
theorem GetDevices_ordered (score : ScoreFn) (nvml : NvmlEnv) (os : LockEnv) (number : Int)
    (flags : Nat) (s : State) (log : LockLog) (hs : s.WF) (best : List Int)
    (h : (GetDevicesWith score nvml os number flags s log).result = .ok best)
    (i j : Nat) (a b : Int) (hij : i < j) (hi : best[i]? = some a) (hj : best[j]? = some b)
    (ha : 0 ≤ a) (hb : 0 ≤ b) : RanksBeforeWith score nvml flags s a b := by
  have hmem_a : a ∈ best := List.getElem?_mem hi
  rcases GetDevicesWith_ok_cases score nvml os number flags s log best h with
    rfl | ⟨hne, _, hbest, _⟩
  · simp only [List.mem_singleton] at hmem_a
    omega
  · have hsub : List.Sublist best (candidatesWith score nvml flags s) := by
      rw [hbest]
      exact (List.take_sublist _ _).trans (availableWith_sublist score nvml os flags s log)
    rw [candidatesWith_eq score nvml flags s hs hne] at hsub
    by_cases hnil : (rankingWith score nvml flags s).map Prod.fst = []
    · simp only [hnil, if_true] at hsub
      have := hsub.subset hmem_a
      simp only [List.mem_singleton] at this
      omega
    · simp only [hnil, if_false] at hsub
      have hp' := (rankingWith_ids_pairwise score nvml flags s hs).sublist hsub
      rw [List.pairwise_iff_getElem] at hp'
      obtain ⟨hi', rfl⟩ := List.getElem?_eq_some.1 hi
      obtain ⟨hj', rfl⟩ := List.getElem?_eq_some.1 hj
      exact hp' i j hi' hj' hij

/-- Witness of C1 on the machine with two devices, in machine arithmetic: all
devices requested, none locked.  The two scores are `557916257 / 2 ^ 29` for
device 0 and `2340070389238989 / 2 ^ 51` for device 1, which is the larger
one; the result is `[1, 0]` and device 1 ranks before device 0. -/
theorem GetDevices_ordered_witness :
    stateTie.WF ∧
      (GetDevicesWith machineScore nvmlTie osFree (-1) 0 stateTie []).result = .ok [1, 0] ∧
      RanksBeforeWith machineScore nvmlTie 0 stateTie 1 0 :=
  ⟨by decide, by decide!,
    GetDevices_ordered machineScore nvmlTie osFree (-1) 0 stateTie [] (by decide) [1, 0]
      (by decide!) 0 1 1 0 (by decide) (by decide) (by decide) (by decide) (by decide)⟩

/-- Witness of C6: a machine without accelerator runtime, with a lock
environment in which the global lock could not be acquired. -/
theorem GetDevices_no_device_witness :
    (State.new cudaNone nvml3).m_procData = [] ∧
      ((GetDevices nvml3 osNoGlobal 2 bestGpuExclusiveLock (State.new cudaNone nvml3) []).result
          = .ok [-1] ∧
        (GetDevices nvml3 osNoGlobal 2 bestGpuExclusiveLock (State.new cudaNone nvml3) []).log
          = [] ∧
        (GetDevices nvml3 osNoGlobal 2 bestGpuExclusiveLock (State.new cudaNone nvml3) []).state
          = State.new cudaNone nvml3) :=
  ⟨by decide, GetDevices_no_device nvml3 osNoGlobal 2 bestGpuExclusiveLock
    (State.new cudaNone nvml3) [] (by decide)⟩

/-! ### C2: the first available devices in rank order -/

theorem LockDevice_fst (os : LockEnv) (i : Int) (trial : Bool) (s : State) (log : LockLog) :
    (LockDevice os i trial s log).1 = (decide (i < 0) || os.acquire log (.device i) false) := by
  unfold LockDevice
  by_cases hi : i < 0
  · simp [hi]
  · by_cases ha : os.acquire log (.device i) false = true
    · cases trial <;> simp [hi, Acquire, ha]
    · simp [hi, Acquire, ha]

theorem trialLoop_filter (os : LockEnv) (avail : Int → Bool)
    (havail : ∀ l d, os.acquire l (.device d) false = avail d) (l : List Int) :
    ∀ (s : State) (log : LockLog),
      (trialLoop os l s log).1 = l.filter (fun i => decide (i < 0) || avail i) := by
  induction l with
  | nil => intro s log; simp [trialLoop]
  | cons i rest ih =>
    intro s log
    simp only [trialLoop, LockDevice_fst, havail, ih, List.filter_cons]

theorem toSizeT_of_nonneg (number : Int) (h0 : 0 ≤ number) (h1 : number < 2 ^ 31) :
    toSizeT number = number.toNat := by
  unfold toSizeT
  rw [Int.emod_eq_of_lt h0 (by omega)]

/-- C2: whatever computes the score (`score` is any function from the flags in
effect and a device record to a double: `machineScore` for the `float` and
`double` arithmetic of the program, `exactScore` for the value without
rounding), for a requested count `number ≥ 1` on a non-empty device set in
which every allowed device scores above `-1`, when the global lock is acquired
and `m ≥ 1` allowed devices have a free lock, `GetDevices` returns
`min number m` devices, each allowed and free, and each of them ranks before
every allowed free device that was left out. -/
theorem GetDevices_first_available (score : ScoreFn) (nvml : NvmlEnv) (os : LockEnv)
    (number : Int) (flags : Nat) (s : State) (log : LockLog) (avail : Int → Bool) (hs : s.WF)
    (hn1 : 1 ≤ number) (hn2 : number < 2 ^ 31) (hne : s.m_procData ≠ [])
    (hscore : ∀ pd ∈ (QueryNvmlData nvml s).m_procData, DeviceAllowed s pd.deviceId = true →
      Dbl.gt (score (effectiveFlags s flags) pd) (Dbl.fin (-1)) = true)
    (hglobal : os.acquire log .global (globalWait s flags) = true)
    (havail : ∀ l d, os.acquire l (.device d) false = avail d)
    (hm : 1 ≤ availableCount s avail) :
    ∃ best, (GetDevicesWith score nvml os number flags s log).result = .ok best ∧
      best.length = min number.toNat (availableCount s avail) ∧
      (∀ d ∈ best, 0 ≤ d ∧ DeviceAllowed s d = true ∧ avail d = true) ∧
      (∀ pd ∈ s.m_procData, DeviceAllowed s pd.deviceId = true → avail pd.deviceId = true →
        pd.deviceId ∉ best → ∀ r ∈ best, RanksBeforeWith score nvml flags s r pd.deviceId) := by
  have hfr := QueryNvmlData_frame nvml s
  have hs' : (QueryNvmlData nvml s).WF := WF_frame hfr hs
  -- the rankingWith holds exactly the allowed devices
  have helig : ∀ pd ∈ (QueryNvmlData nvml s).m_procData,
      eligibleWith (QueryNvmlData nvml s) (score (effectiveFlags s flags)) pd =
        DeviceAllowed s pd.deviceId := by
    intro pd hpd
    unfold eligibleWith
    rw [DeviceAllowed_frame hfr]
    by_cases ha : DeviceAllowed s pd.deviceId = true
    · simp [ha, hscore pd hpd ha]
    · simp [ha]
  have hL : List.Perm ((rankingWith score nvml flags s).map Prod.fst)
      ((s.m_procData.map (fun pd => pd.deviceId)).filter (DeviceAllowed s)) := by
    refine (rankingWith_ids_perm score nvml flags s).trans ?_
    rw [List.filter_congr helig, ← hfr.2.2.2.2.2.2, List.filter_map]
    rfl
  have hcount : availableCount s avail =
      (((rankingWith score nvml flags s).map Prod.fst).filter avail).length := by
    rw [(hL.filter avail).length_eq, List.filter_filter, List.filter_map, List.length_map]
    unfold availableCount
    congr 1
    refine List.filter_congr ?_
    intro pd _
    simp [Bool.and_comm]
  have hLne : (rankingWith score nvml flags s).map Prod.fst ≠ [] := by
    intro hnil
    rw [hnil] at hcount
    simp at hcount
    omega
  have hnonneg : ∀ d ∈ (rankingWith score nvml flags s).map Prod.fst, 0 ≤ d := by
    intro d hd
    obtain ⟨y, hy, rfl⟩ := List.mem_map.1 hd
    obtain ⟨pd, hpd, _, rfl⟩ := rankingWith_mem hy
    exact WF_deviceId_nonneg hs' hpd
  have hav : availableWith score nvml os flags s log =
      ((rankingWith score nvml flags s).map Prod.fst).filter avail := by
    unfold availableWith
    rw [trialLoop_filter os avail havail, candidatesWith_eq score nvml flags s hs hne]
    simp only [hLne, if_false]
    refine List.filter_congr ?_
    intro d hd
    have := hnonneg d hd
    simp [not_lt.2 this]
  have hreq : toSizeT (requested s number) = number.toNat := by
    have : requested s number = number := by
      unfold requested AllDevices RequeryDevices
      rw [if_neg (by omega), if_neg (by omega)]
    rw [this, toSizeT_of_nonneg number (by omega) hn2]
  have hres := GetDevicesWith_result score nvml os number flags s log hne
  rw [hglobal, if_pos rfl, hreq, hav] at hres
  have htake :
      (((rankingWith score nvml flags s).map Prod.fst).filter avail).take number.toNat ≠ [] := by
    intro hnil
    have := congrArg List.length hnil
    simp only [List.length_take, List.length_nil, ← hcount] at this
    omega
  rw [if_neg htake] at hres
  refine ⟨_, hres, ?_, ?_, ?_⟩
  · rw [List.length_take, hcount]
  · intro d hd
    have hd' := (List.take_subset _ _) hd
    rw [List.mem_filter] at hd'
    have hA := hL.mem_iff.1 hd'.1
    rw [List.mem_filter] at hA
    exact ⟨hnonneg d hd'.1, hA.2, hd'.2⟩
  · intro pd hpd ha hfree hnot r hr
    have hmem : pd.deviceId ∈ ((rankingWith score nvml flags s).map Prod.fst).filter avail := by
      rw [List.mem_filter]
      refine ⟨hL.mem_iff.2 ?_, hfree⟩
      rw [List.mem_filter]
      exact ⟨List.mem_map_of_mem _ hpd, ha⟩
    rw [← List.take_append_drop number.toNat
      (((rankingWith score nvml flags s).map Prod.fst).filter avail), List.mem_append] at hmem
    have hdrop := hmem.resolve_left hnot
    have hp := (rankingWith_ids_pairwise score nvml flags s hs).sublist
      (List.filter_sublist (p := avail) ((rankingWith score nvml flags s).map Prod.fst))
    rw [← List.take_append_drop number.toNat
      (((rankingWith score nvml flags s).map Prod.fst).filter avail), List.pairwise_append] at hp
    exact hp.2.2 r hr _ hdrop

/-- Witness of C2 on the machine with two devices, in machine arithmetic: one
device requested, both locks free; device 1 is returned and ranks before
device 0, which is left out. -/
theorem GetDevices_first_available_witness :
    (GetDevicesWith machineScore nvmlTie osFree 1 0 stateTie []).result = .ok [1] ∧
      availableCount stateTie (fun _ => true) = 2 ∧
      ∃ best, (GetDevicesWith machineScore nvmlTie osFree 1 0 stateTie []).result = .ok best ∧
        best.length = min (1 : Int).toNat (availableCount stateTie (fun _ => true)) ∧
        (∀ d ∈ best, 0 ≤ d ∧ DeviceAllowed stateTie d = true ∧ true = true) ∧
        (∀ pd ∈ stateTie.m_procData, DeviceAllowed stateTie pd.deviceId = true →
          true = true → pd.deviceId ∉ best →
          ∀ r ∈ best, RanksBeforeWith machineScore nvmlTie 0 stateTie r pd.deviceId) :=
  ⟨by decide!, by decide,
    GetDevices_first_available machineScore nvmlTie osFree 1 0 stateTie [] (fun _ => true)
      (by decide) (by decide) (by decide) (by decide) (by decide!) (by decide)
      (by intro l d; rfl) (by decide)⟩

/-! ### C3 and C4: devices that are never returned -/

theorem mem_deviceIds_frame {s s' : State} (h : State.Frame s s') {pd : ProcessorData}
    (hpd : pd ∈ s'.m_procData) : ∃ pd' ∈ s.m_procData, pd'.deviceId = pd.deviceId := by
  have hm : pd.deviceId ∈ s'.m_procData.map (fun pd => pd.deviceId) :=
    List.mem_map_of_mem _ hpd
  rw [h.2.2.2.2.2.2] at hm
  obtain ⟨pd', hpd', hid⟩ := List.mem_map.1 hm
  exact ⟨pd', hpd', hid⟩

theorem candidates_mem (nvml : NvmlEnv) (flags : Nat) (s : State) (x : Int)
    (hx : x ∈ candidates nvml flags s) :
    x = -1 ∨ (DeviceAllowed s x = true ∧ ∃ pd ∈ s.m_procData, pd.deviceId = x) := by
  have hx' := trimBest_subset _ x hx
  obtain ⟨y, hy, rfl⟩ := List.mem_map.1 hx'
  rcases rankLoop_mem _ _ _ _ y hy with h | ⟨pd, hpd, ha, rfl⟩
  · rw [List.mem_replicate] at h
    exact Or.inl (by rw [h.2]; rfl)
  · rw [DeviceAllowed_frame (QueryNvmlData_frame nvml s)] at ha
    exact Or.inr ⟨ha, mem_deviceIds_frame (QueryNvmlData_frame nvml s) hpd⟩

theorem GetDevices_mem (nvml : NvmlEnv) (os : LockEnv) (number : Int) (flags : Nat)
    (s : State) (log : LockLog) (best : List Int)
    (h : (GetDevices nvml os number flags s log).result = .ok best) (x : Int) (hx : x ∈ best) :
    x = -1 ∨ x ∈ available nvml os flags s log := by
  rcases GetDevices_ok_cases nvml os number flags s log best h with rfl | ⟨_, _, hbest, _⟩
  · exact Or.inl (by simpa using hx)
  · rw [hbest] at hx
    exact Or.inr (List.take_subset _ _ hx)

/-- C3: a device index `d ≥ 0` for which `DeviceAllowed` is false is not in
the list `GetDevices` returns, whatever the scores, the requested count, the
flags and the locks. -/
theorem GetDevices_excludes_disallowed (nvml : NvmlEnv) (os : LockEnv) (number : Int)
    (flags : Nat) (s : State) (log : LockLog) (d : Int) (hd : 0 ≤ d)
    (hna : DeviceAllowed s d = false) (best : List Int)
    (h : (GetDevices nvml os number flags s log).result = .ok best) : d ∉ best := by
  intro hmem
  rcases GetDevices_mem nvml os number flags s log best h d hmem with h1 | h1
  · omega
  · rcases candidates_mem nvml flags s d
      ((available_sublist nvml os flags s log).subset h1) with h2 | ⟨h2, _⟩
    · omega
    · rw [hna] at h2
      exact Bool.noConfusion h2

/-- Witness of C3 on the example machine: devices 0 and 2 are allowed, all
devices are requested, and device 1 is not returned. -/
theorem GetDevices_excludes_disallowed_witness :
    DeviceAllowed (SetAllowedDevices state3 [0, 2]) 1 = false ∧
      (GetDevices nvml3 osFree (-1) 0 (SetAllowedDevices state3 [0, 2]) []).result
        = .ok [0, 2] ∧
      (1 : Int) ∉ [(0 : Int), 2] :=
  ⟨by decide, by decide!,
    GetDevices_excludes_disallowed nvml3 osFree (-1) 0 (SetAllowedDevices state3 [0, 2]) [] 1
      (by decide) (by decide) [0, 2] (by decide!)⟩

/-- C4: a physical device `d ≥ 0` whose lock cannot be acquired (another
process holds it) is not in the list `GetDevices` returns, whatever its score. -/
theorem GetDevices_excludes_locked (nvml : NvmlEnv) (os : LockEnv) (number : Int)
    (flags : Nat) (s : State) (log : LockLog) (d : Int) (hd : 0 ≤ d)
    (hlocked : ∀ l, os.acquire l (.device d) false = false) (best : List Int)
    (h : (GetDevices nvml os number flags s log).result = .ok best) : d ∉ best := by
  intro hmem
  rcases GetDevices_mem nvml os number flags s log best h d hmem with h1 | h1
  · omega
  · exact trialLoop_unavailable os d hd hlocked _ _ _ h1

/-- Witness of C4 on the example machine: device 0 has the highest score and
its lock is held by another process; the devices returned are 1 and 2. -/
theorem GetDevices_excludes_locked_witness :
    (GetDevices nvml3 osFree 1 0 state3 []).result = .ok [0] ∧
      (GetDevices nvml3 (osHeld 0) (-1) 0 state3 []).result = .ok [1, 2] ∧
      (0 : Int) ∉ [(1 : Int), 2] :=
  ⟨by decide!, by decide!,
    GetDevices_excludes_locked nvml3 (osHeld 0) (-1) 0 state3 [] 0 (by decide)
      (by intro l; simp [osHeld]) [1, 2] (by decide!)⟩

/-! ### C7: the exit surface of `GetDevices` -/

/-- C7: `GetDevices` raises `RuntimeError` when there is a device and the
global lock is not acquired; in every other case it returns a non-empty list,
which is `[-1]` when the lock of every allowed device is unavailable. -/
theorem GetDevices_exit_surface (nvml : NvmlEnv) (os : LockEnv) (number : Int) (flags : Nat)
    (s : State) (log : LockLog) (hs : s.WF) :
    ((s.m_procData ≠ [] ∧ os.acquire log .global (globalWait s flags) = false) →
      (GetDevices nvml os number flags s log).result = .error .RuntimeError) ∧
    (¬(s.m_procData ≠ [] ∧ os.acquire log .global (globalWait s flags) = false) →
      ∃ best, (GetDevices nvml os number flags s log).result = .ok best ∧ best ≠ [] ∧
        ((∀ pd ∈ s.m_procData, DeviceAllowed s pd.deviceId = true →
            ∀ l, os.acquire l (.device pd.deviceId) false = false) → best = [-1])) := by
  constructor
  · rintro ⟨hne, hg⟩
    rw [GetDevices_result nvml os number flags s log hne, hg]
    simp
  · intro hcond
    have hok : ∃ best, (GetDevices nvml os number flags s log).result = .ok best := by
      by_cases hne : s.m_procData = []
      · exact ⟨_, GetDevices_result_nil nvml os number flags s log hne⟩
      · have hg : os.acquire log .global (globalWait s flags) = true := by
          by_contra hg
          exact hcond ⟨hne, by simpa using hg⟩
        rw [GetDevices_result nvml os number flags s log hne, hg]
        exact ⟨_, rfl⟩
    obtain ⟨best, hbest⟩ := hok
    refine ⟨best, hbest, ?_, ?_⟩
    · rcases GetDevices_ok_cases nvml os number flags s log best hbest with rfl | ⟨_, _, _, h⟩
      · simp
      · exact h
    · intro hlocked
      rcases GetDevices_ok_cases nvml os number flags s log best hbest with
        rfl | ⟨hne, _, htake, hnonempty⟩
      · rfl
      · have hsub : List.Sublist best (candidates nvml flags s) := by
          rw [htake]
          exact (List.take_sublist _ _).trans (available_sublist nvml os flags s log)
        by_cases hnil : (ranking nvml flags s).map Prod.fst = []
        · rw [candidates_eq nvml flags s hs hne, if_pos hnil, List.sublist_singleton] at hsub
          exact hsub.resolve_left hnonempty
        · exfalso
          obtain ⟨x, hx⟩ := List.exists_mem_of_ne_nil best hnonempty
          have hxc := hsub.subset hx
          rw [htake] at hx
          have hxa := List.take_subset _ _ hx
          rcases candidates_mem nvml flags s x hxc with h1 | ⟨h1, pd, hpd, rfl⟩
          · rw [candidates_eq nvml flags s hs hne, if_neg hnil] at hxc
            obtain ⟨y, hy, rfl⟩ := List.mem_map.1 hxc
            obtain ⟨pd, hpd, _, rfl⟩ := ranking_mem hy
            have := WF_deviceId_nonneg (WF_frame (QueryNvmlData_frame nvml s) hs) hpd
            simp only at h1
            omega
          · exact trialLoop_unavailable os pd.deviceId (WF_deviceId_nonneg hs hpd)
              (hlocked pd hpd h1) _ _ _ hxa

/-- Witness of C7 on the example machine with the global lock unavailable:
`GetDevices` raises `RuntimeError`. -/
theorem GetDevices_exit_surface_witness :
    state3.WF ∧ (GetDevices nvml3 osNoGlobal 1 0 state3 []).result = .error .RuntimeError ∧
      (GetDevices nvml3 osDevicesHeld 3 0 state3 []).result = .ok [-1] ∧
      ∃ best, (GetDevices nvml3 osDevicesHeld 3 0 state3 []).result = .ok best ∧ best ≠ [] ∧
        ((∀ pd ∈ state3.m_procData, DeviceAllowed state3 pd.deviceId = true →
            ∀ l, osDevicesHeld.acquire l (.device pd.deviceId) false = false) → best = [-1]) :=
  ⟨by decide,
    (GetDevices_exit_surface nvml3 osNoGlobal 1 0 state3 [] (by decide)).1
      ⟨by decide, by decide⟩,
    by decide!,
    (GetDevices_exit_surface nvml3 osDevicesHeld 3 0 state3 [] (by decide)).2 (by decide)⟩

/-! ### Construction establishes well-formedness -/

theorem cudaLoop_deviceId (cuda : CudaEnv) (l : List ProcessorData) :
    ∀ dev : Nat, (cudaLoop cuda dev l).map (fun pd => pd.deviceId) =
      (List.range' dev l.length).map Int.ofNat := by
  induction l with
  | nil => intro dev; simp [cudaLoop]
  | cons pd rest ih =>
    intro dev
    simp [cudaLoop, List.range'_succ, ih (dev + 1)]

theorem cudaLoop_length (cuda : CudaEnv) (l : List ProcessorData) (dev : Nat) :
    (cudaLoop cuda dev l).length = l.length := by
  simpa using congrArg List.length (cudaLoop_deviceId cuda l dev)

theorem GetNvmlData_frame (nvml : NvmlEnv) (s : State) : State.Frame s (GetNvmlData nvml s) := by
  unfold GetNvmlData
  split
  · exact State.Frame.refl s
  · split
    · exact State.Frame.refl s
    · exact QueryNvmlData_frame nvml s

theorem State.new_WF (cuda : CudaEnv) (nvml : NvmlEnv) : (State.new cuda nvml).WF := by
  unfold State.new Init
  simp only [Bool.false_eq_true, if_false, List.nil_append]
  have key : ∀ s0 : State, s0.WF → ({ GetNvmlData nvml s0 with m_initialized := true }).WF :=
    fun s0 h => WF_frame ((GetNvmlData_frame nvml s0).trans (by simp [State.Frame])) h
  split
  · refine key _ ?_
    unfold GetCudaProperties
    simp only [Bool.false_eq_true, if_false]
    constructor
    · simp [cudaLoop_length]
    · simp [cudaLoop_deviceId, cudaLoop_length, List.range_eq_range']
  · rename_i h
    have h0 : cuda.deviceCount.getD 0 = 0 := by simpa using h
    simp [State.WF, h0]

/-! ### C8: the requested device cannot change -/

theorem resolveDevice_selected (c : DeviceIds) (env : SelectEnv) (v : Int) (l : Bool)
    (st : Statics) : (resolveDevice c env v l st).2.selectedDeviceId = st.selectedDeviceId := by
  unfold resolveDevice
  split
  · split
    · simp only []
      split <;> rfl
    · rfl
  · rfl

theorem SelectDevice_selected (c : DeviceIds) (env : SelectEnv) (v : Int) (l : Bool)
    (st : Statics) (h : st.selectedDeviceId ≠ c.DEVICEID_NOTYETDETERMINED) :
    (SelectDevice c env v l st).2.selectedDeviceId = st.selectedDeviceId := by
  unfold SelectDevice
  rw [if_neg h]
  split
  · rfl
  · exact resolveDevice_selected c env v l st

theorem SelectDevice_first (c : DeviceIds) (env : SelectEnv) (v : Int) (l : Bool)
    (st : Statics) (h : st.selectedDeviceId = c.DEVICEID_NOTYETDETERMINED) :
    (SelectDevice c env v l st).2.selectedDeviceId = v := by
  unfold SelectDevice
  rw [if_pos h, resolveDevice_selected]

theorem runCalls_selected (c : DeviceIds) (calls : List Call) :
    ∀ st : Statics, st.selectedDeviceId ≠ c.DEVICEID_NOTYETDETERMINED →
      (runCalls c calls st).selectedDeviceId = st.selectedDeviceId := by
  induction calls with
  | nil => intro st _; rfl
  | cons k rest ih =>
    intro st h
    have h1 := SelectDevice_selected c k.env k.deviceId k.bLockGPU st h
    simp only [runCalls]
    rw [ih _ (by rw [h1]; exact h), h1]

/-- C8: after a first call `SelectDevice(v1, _)` in a process, with `v1` a
device value (not the not-yet-determined marker), every later call with a
value `v2 ≠ v1` raises `InvalidArgument`, whatever calls lie in between. -/
theorem SelectDevice_change_fails (c : DeviceIds) (env1 env2 : SelectEnv) (v1 v2 : Int)
    (l1 l2 : Bool) (between : List Call) (hv1 : v1 ≠ c.DEVICEID_NOTYETDETERMINED)
    (hne : v2 ≠ v1) :
    (SelectDevice c env2 v2 l2
      (runCalls c between (SelectDevice c env1 v1 l1 (Statics.initial c)).2)).1 =
        .error .InvalidArgument := by
  have h1 : (SelectDevice c env1 v1 l1 (Statics.initial c)).2.selectedDeviceId = v1 :=
    SelectDevice_first c env1 v1 l1 _ rfl
  have h2 := runCalls_selected c between (SelectDevice c env1 v1 l1 (Statics.initial c)).2
    (by rw [h1]; exact hv1)
  rw [h1] at h2
  generalize runCalls c between (SelectDevice c env1 v1 l1 (Statics.initial c)).2 = st at h2
  unfold SelectDevice
  rw [if_neg (by rw [h2]; exact hv1), if_pos (by rw [h2]; exact fun h => hne h.symm)]

/-- Witness of C8 with the constants of `CommonMatrix.h`: a first call with
`auto`, a second call with `auto`, then a call with device 0. -/
theorem SelectDevice_change_fails_witness :
    (SelectDevice cntkDeviceIds (env3 osFree) 0 true
      (runCalls cntkDeviceIds [⟨env3 osFree, -4, true⟩]
        (SelectDevice cntkDeviceIds (env3 osFree) (-4) true
          (Statics.initial cntkDeviceIds)).2)).1 = .error .InvalidArgument :=
  SelectDevice_change_fails cntkDeviceIds (env3 osFree) (env3 osFree) (-4) 0 true true
    [⟨env3 osFree, -4, true⟩] (by decide) (by decide)

/-! ### C9: a repeated call returns the cached device -/

theorem GetDevice_ge (nvml : NvmlEnv) (os : LockEnv) (flags : Nat) (g : State) (log : LockLog)
    (hg : g.WF) (r : Int) (h : (GetDevice nvml os flags g log).result = .ok r) : -1 ≤ r := by
  unfold GetDevice at h
  simp only [] at h
  cases hres : (GetDevices nvml os 1 flags g log).result with
  | error e => rw [hres] at h; simp [Except.map] at h
  | ok best =>
    rw [hres] at h
    simp only [Except.map, Except.ok.injEq] at h
    rcases GetDevices_ok_cases nvml os 1 flags g log best hres with rfl | ⟨_, _, _, hne⟩
    · simp at h
      omega
    · cases best with
      | nil => exact absurd rfl hne
      | cons x rest =>
        simp only [List.headD_cons] at h
        subst h
        rcases GetDevices_mem nvml os 1 flags g log _ hres x (by simp) with h1 | h1
        · omega
        · rcases candidates_mem nvml flags g x
            ((available_sublist nvml os flags g log).subset h1) with h2 | ⟨_, pd, hpd, rfl⟩
          · omega
          · have := WF_deviceId_nonneg hg hpd
            omega

theorem resolveDevice_repeat (c : DeviceIds) (hc : c.Valid) (env1 env2 : SelectEnv) (v : Int)
    (l1 l2 : Bool) (st : Statics) (hinv : st.Inv) (r : Int) (st1 : Statics)
    (h1 : resolveDevice c env1 v l1 st = (.ok r, st1)) :
    resolveDevice c env2 v l2 st1 = (.ok r, st1) := by
  unfold resolveDevice at h1 ⊢
  by_cases hv : v = c.DEVICEID_AUTO
  · simp only [hv, if_true] at h1 ⊢
    by_cases hb : st.bestDeviceId = c.DEVICEID_NOTYETDETERMINED
    · simp only [hb, if_true] at h1
      have hWF : (match st.g_bestGpu with
          | none => State.new env1.cuda env1.nvmlInit
          | some g => g).WF := by
        cases hgb : st.g_bestGpu with
        | none => exact State.new_WF _ _
        | some g => exact hinv g hgb
      generalize (match st.g_bestGpu with
          | none => State.new env1.cuda env1.nvmlInit
          | some g => g) = g0 at h1 hWF
      cases hres : (GetDevice env1.nvmlQuery env1.os
          (if l1 = true then bestGpuAvoidSharing ||| bestGpuExclusiveLock
            else bestGpuAvoidSharing) g0 st.log).result with
      | error e => rw [hres] at h1; simp at h1
      | ok best =>
        rw [hres] at h1
        simp only [Prod.mk.injEq, Except.ok.injEq] at h1
        obtain ⟨rfl, rfl⟩ := h1
        have hge := GetDevice_ge _ _ _ _ _ hWF best hres
        have hne : best ≠ c.DEVICEID_NOTYETDETERMINED := by
          have := hc.2.1
          omega
        simp only [hne, if_false]
    · simp only [hb, if_false, Prod.mk.injEq, Except.ok.injEq] at h1
      obtain ⟨rfl, rfl⟩ := h1
      simp only [hb, if_false]
  · simp only [hv, if_false, Prod.mk.injEq, Except.ok.injEq] at h1 ⊢
    obtain ⟨rfl, rfl⟩ := h1
    trivial

/-- C9: when a call `SelectDevice(v, _)` returns a device, the next call with
the same `v` returns the same device and leaves the statics untouched (the
selector object and the log of mutex acquisitions included), whatever the
devices, NVML and the locks are by then: the selection does not run again. -/
theorem SelectDevice_repeat (c : DeviceIds) (hc : c.Valid) (env1 env2 : SelectEnv) (v : Int)
    (l1 l2 : Bool) (st : Statics) (hinv : st.Inv) (r : Int) (st1 : Statics)
    (h1 : SelectDevice c env1 v l1 st = (.ok r, st1)) :
    SelectDevice c env2 v l2 st1 = (.ok r, st1) := by
  have hsel : st1.selectedDeviceId = v ∧ resolveDevice c env2 v l2 st1 = (.ok r, st1) := by
    unfold SelectDevice at h1
    by_cases h0 : st.selectedDeviceId = c.DEVICEID_NOTYETDETERMINED
    · rw [if_pos h0] at h1
      have hs := resolveDevice_selected c env1 v l1 { st with selectedDeviceId := v }
      rw [h1] at hs
      exact ⟨hs, resolveDevice_repeat c hc env1 env2 v l1 l2
        { st with selectedDeviceId := v } hinv r st1 h1⟩
    · rw [if_neg h0] at h1
      by_cases hv : st.selectedDeviceId ≠ v
      · rw [if_pos hv] at h1
        simp at h1
      · rw [if_neg hv] at h1
        have hs := resolveDevice_selected c env1 v l1 st
        rw [h1] at hs
        exact ⟨hs.trans (not_not.1 hv), resolveDevice_repeat c hc env1 env2 v l1 l2 _ hinv r st1 h1⟩
  obtain ⟨hs, hr⟩ := hsel
  unfold SelectDevice
  by_cases h0 : st1.selectedDeviceId = c.DEVICEID_NOTYETDETERMINED
  · rw [if_pos h0]
    have : ({ st1 with selectedDeviceId := v } : Statics) = st1 := by
      cases st1
      simp only at hs
      simp [hs]
    rw [this, hr]
  · rw [if_neg h0, if_neg (by simp [hs]), hr]

/-- Witness of C9 on the example machine: the first call with `auto` in a
process returns device 0; the second call, made when all locks are taken,
returns device 0 again. -/
theorem SelectDevice_repeat_witness :
    (SelectDevice cntkDeviceIds (env3 osFree) (-4) true (Statics.initial cntkDeviceIds)).1
        = .ok 0 ∧
      SelectDevice cntkDeviceIds (env3 osNoGlobal) (-4) false
        (SelectDevice cntkDeviceIds (env3 osFree) (-4) true (Statics.initial cntkDeviceIds)).2 =
        (.ok 0,
          (SelectDevice cntkDeviceIds (env3 osFree) (-4) true (Statics.initial cntkDeviceIds)).2) :=
  ⟨by decide!,
    SelectDevice_repeat cntkDeviceIds (by simp [DeviceIds.Valid, cntkDeviceIds]) (env3 osFree)
      (env3 osNoGlobal) (-4) true false
      (Statics.initial cntkDeviceIds) (by intro g hg; simp [Statics.initial] at hg) 0 _
      (Prod.ext (by decide!) rfl)⟩

theorem LockDevice_WF (os : LockEnv) (d : Int) (trial : Bool) (s : State) (log : LockLog)
    (hs : s.WF) : (LockDevice os d trial s log).2.1.WF := by
  unfold LockDevice
  by_cases hd : d < 0
  · rw [if_pos hd]; exact hs
  · rw [if_neg hd]
    by_cases ha : (Acquire os (.device d) false log).1 = true
    · cases trial
      · simp only [ha, Bool.not_true, Bool.false_eq_true, if_false, Bool.not_false, if_true]
        exact hs
      · simp only [ha, Bool.not_true, Bool.false_eq_true, if_false]
        exact hs
    · simp only [ha, Bool.not_false, if_true]
      exact hs

theorem heldLoop_WF (os : LockEnv) (l : List Int) :
    ∀ (s : State) (log : LockLog), s.WF → (heldLoop os l s log).1.WF := by
  induction l with
  | nil => intro s log hs; exact hs
  | cons b rest ih =>
    intro s log hs
    simp only [heldLoop]
    exact ih _ _ (LockDevice_WF os b false s log hs)

theorem GetDevices_WF (nvml : NvmlEnv) (os : LockEnv) (number : Int) (flags : Nat)
    (s : State) (log : LockLog) (hs : s.WF) : (GetDevices nvml os number flags s log).state.WF := by
  have hs' : (QueryNvmlData nvml s).WF := WF_frame (QueryNvmlData_frame nvml s) hs
  unfold GetDevices
  simp only []
  split
  · exact hs
  · split
    · exact hs'
    · refine heldLoop_WF os _ _ _ ?_
      rw [trialLoop_state]
      exact hs'

/-- Every call of `SelectDevice` keeps the selector of the statics well formed. -/
theorem SelectDevice_inv (c : DeviceIds) (env : SelectEnv) (v : Int) (l : Bool) (st : Statics)
    (hinv : st.Inv) : (SelectDevice c env v l st).2.Inv := by
  have key : ∀ st' : Statics, st'.Inv → (resolveDevice c env v l st').2.Inv := by
    intro st' hinv'
    unfold resolveDevice
    split
    · split
      · have hWF : (match st'.g_bestGpu with
            | none => State.new env.cuda env.nvmlInit
            | some g => g).WF := by
          cases hgb : st'.g_bestGpu with
          | none => exact State.new_WF _ _
          | some g => exact hinv' g hgb
        have hW := GetDevices_WF env.nvmlQuery env.os 1
          (if l = true then bestGpuAvoidSharing ||| bestGpuExclusiveLock
            else bestGpuAvoidSharing) _ st'.log hWF
        simp only []
        split
        · intro g hg
          simp only [Option.some.injEq] at hg
          rw [← hg]
          exact hW
        · intro g hg
          simp only [Option.some.injEq] at hg
          rw [← hg]
          exact hW
      · exact hinv'
    · exact hinv'
  unfold SelectDevice
  split
  · exact key _ hinv
  · split
    · exact hinv
    · exact key _ hinv

/-! ### C10: the score formula -/

theorem adjustWeights_eq_specWeights (bestFlags : Nat) :
    adjustWeights bestFlags = specWeights bestFlags := by
  unfold adjustWeights specWeights
  congr 1 <;> split <;> simp_all

theorem specWeights_freeMemW_pos (flags : Nat) : 0 < (specWeights flags).freeMemW := by
  unfold specWeights
  simp only []
  split <;> norm_num

theorem Dbl.add_def (a b : Dbl) : a + b = Dbl.add a b := rfl

theorem Dbl.mul_def (a b : Dbl) : a * b = Dbl.mul a b := rfl

theorem deviceScore_eq_specScore (bestFlags : Nat) (pd : ProcessorData) :
    deviceScore (adjustWeights bestFlags) pd = specScore bestFlags pd := by
  rw [adjustWeights_eq_specWeights]
  have hpos := specWeights_freeMemW_pos bestFlags
  have hne : (specWeights bestFlags).freeMemW ≠ 0 := ne_of_gt hpos
  unfold deviceScore specScore
  simp only [Dbl.add_def, Dbl.mul_def]
  cases memRatio pd <;> simp [Dbl.add, Dbl.mul, Dbl.mulInf, hne, hpos]

theorem specWeights_bounds (flags : Nat) :
    (0 < (specWeights flags).utilGpuW ∧ (specWeights flags).utilGpuW ≤ 3 / 10) ∧
    (0 < (specWeights flags).utilMemW ∧ (specWeights flags).utilMemW ≤ 2 / 10) ∧
    0 < (specWeights flags).speedW ∧ 0 < (specWeights flags).mlAppRunningW := by
  unfold specWeights
  simp only []
  refine ⟨⟨?_, ?_⟩, ⟨?_, ?_⟩, ?_, ?_⟩ <;> split <;> norm_num

/-- A device with utilization percentages at most 100, non-negative cores and
a non-negative free-memory ratio scores above `-1`, whatever the flags. -/
theorem deviceScore_gt_neg_one (bestFlags : Nat) (pd : ProcessorData) (r : ℚ)
    (hgpu : pd.utilization.gpu ≤ 100) (hmem : pd.utilization.memory ≤ 100)
    (hcores : 0 ≤ pd.cores) (hr : memRatio pd = Dbl.fin r) (hr0 : 0 ≤ r) :
    Dbl.gt (deviceScore (adjustWeights bestFlags) pd) (Dbl.fin (-1)) = true := by
  rw [deviceScore_eq_specScore]
  unfold specScore
  rw [hr]
  simp only [Dbl.gt, decide_eq_true_eq]
  obtain ⟨⟨hu0, hu1⟩, ⟨hm0, hm1⟩, hs0, hp0⟩ := specWeights_bounds bestFlags
  have hf0 := specWeights_freeMemW_pos bestFlags
  have h1 : (pd.utilization.gpu : ℚ) ≤ 100 := by exact_mod_cast hgpu
  have h2 : (pd.utilization.memory : ℚ) ≤ 100 := by exact_mod_cast hmem
  have h3 : (0 : ℚ) ≤ pd.cores := by exact_mod_cast hcores
  have t1 : -(1 / 10 : ℚ) ≤ (1 - pd.utilization.gpu / 75) * (specWeights bestFlags).utilGpuW := by
    nlinarith
  have t2 : -(2 / 15 : ℚ) ≤
      (1 - pd.utilization.memory / 60) * (specWeights bestFlags).utilMemW := by
    nlinarith
  have t3 : (0 : ℚ) ≤ pd.cores / 1000 * (specWeights bestFlags).speedW := by positivity
  have t4 : (0 : ℚ) ≤ r * (specWeights bestFlags).freeMemW := by positivity
  have t5 : (0 : ℚ) ≤ (if pd.cntkFound then 0 else 1) * (specWeights bestFlags).mlAppRunningW := by
    split <;> simp [le_of_lt hp0]
  linarith

/-! ### C13: the allow-mask after `SetAllowedDevices` -/


theorem bit32_testBit (x : Int) (k : Nat) :
    (bit32 x).testBit k = decide (0 ≤ x ∧ x < 32 ∧ x.toNat = k) := by
  unfold bit32
  by_cases h : 0 ≤ x ∧ x < 32
  · rw [if_pos h, Nat.testBit_two_pow]
    simp [h.1, h.2]
  · rw [if_neg h]
    simp only [Nat.zero_testBit]
    symm
    rw [decide_eq_false_iff_not]
    intro h'
    exact h ⟨h'.1, h'.2.1⟩

theorem foldl_bit32_testBit (L : List Int) (k : Nat) :
    ∀ m : Nat, (L.foldl (fun m device => m ||| bit32 device) m).testBit k =
      (m.testBit k || L.any (fun x => decide (0 ≤ x ∧ x < 32 ∧ x.toNat = k))) := by
  induction L with
  | nil => intro m; simp
  | cons x L ih =>
    intro m
    simp only [List.foldl_cons, ih, Nat.testBit_or, bit32_testBit, List.any_cons, Bool.or_assoc]

theorem DeviceAllowed_iff_testBit (s : State) (d : Int) (hd : 0 ≤ d ∧ d < 32) :
    DeviceAllowed s d = true ↔ s.m_allowedDevices.testBit d.toNat = true := by
  unfold DeviceAllowed bit32
  rw [if_pos hd, Nat.and_two_pow]
  cases s.m_allowedDevices.testBit d.toNat <;> simp

/-- C13: after `SetAllowedDevices(L)` with `L` a list of indices in `0..31`,
`DeviceAllowed(d)` holds for an index `d` in `0..31` exactly when `d` occurs
in `L`, whatever the mask was before. -/
theorem SetAllowedDevices_allowed (s : State) (L : List Int) (d : Int)
    (_hL : ∀ x ∈ L, 0 ≤ x ∧ x < 32) (hd : 0 ≤ d ∧ d < 32) :
    DeviceAllowed (SetAllowedDevices s L) d = true ↔ d ∈ L := by
  rw [DeviceAllowed_iff_testBit _ d hd]
  simp only [SetAllowedDevices, foldl_bit32_testBit, Nat.zero_testBit, Bool.false_or,
    List.any_eq_true, decide_eq_true_eq]
  constructor
  · rintro ⟨x, hx, hx0, _, hxd⟩
    have : x = d := by
      have := hd.1
      omega
    rw [← this]
    exact hx
  · intro h
    exact ⟨d, h, hd.1, hd.2, rfl⟩

/-- Witness of C13 on the example machine: after `SetAllowedDevices([0, 2])`
device 2 is allowed and device 1 is not; after `SetAllowedDevices([])` device
2 is not allowed any more. -/
theorem SetAllowedDevices_allowed_witness :
    (DeviceAllowed (SetAllowedDevices state3 [0, 2]) 2 = true ↔ (2 : Int) ∈ [(0 : Int), 2]) ∧
      DeviceAllowed (SetAllowedDevices state3 [0, 2]) 1 = false ∧
      DeviceAllowed (SetAllowedDevices (SetAllowedDevices state3 [0, 2]) []) 2 = false :=
  ⟨SetAllowedDevices_allowed state3 [0, 2] 2 (by decide) (by decide), by decide, by decide⟩

/-! ### C14: explicit device values -/

/-- C14: a first call of `SelectDevice` with a value `v` other than `auto`
returns `v` for either value of the lock flag and whatever the devices, NVML
and the locks are; afterwards no selector object exists and the log of mutex
acquisitions is empty, only the selected value is recorded. -/
theorem SelectDevice_explicit (c : DeviceIds) (env : SelectEnv) (v : Int) (bLockGPU : Bool)
    (hv : v ≠ c.DEVICEID_AUTO) :
    SelectDevice c env v bLockGPU (Statics.initial c) =
      (.ok v, { Statics.initial c with selectedDeviceId := v }) ∧
    (SelectDevice c env v bLockGPU (Statics.initial c)).2.g_bestGpu = none ∧
    (SelectDevice c env v bLockGPU (Statics.initial c)).2.log = [] := by
  have h : SelectDevice c env v bLockGPU (Statics.initial c) =
      (.ok v, { Statics.initial c with selectedDeviceId := v }) := by
    unfold SelectDevice resolveDevice
    simp [Statics.initial, hv]
  rw [h]
  exact ⟨rfl, rfl, rfl⟩

/-- Witness of C14 with the constants of `CommonMatrix.h`: host-only and
device 1 on the example machine, with the locks of all devices taken. -/
theorem SelectDevice_explicit_witness :
    (SelectDevice cntkDeviceIds (env3 osDevicesHeld) (-1) false
        (Statics.initial cntkDeviceIds)).1 = .ok (-1) ∧
      (SelectDevice cntkDeviceIds (env3 osDevicesHeld) 1 true
          (Statics.initial cntkDeviceIds) =
        (.ok 1, { Statics.initial cntkDeviceIds with selectedDeviceId := 1 }) ∧
      (SelectDevice cntkDeviceIds (env3 osDevicesHeld) 1 true
        (Statics.initial cntkDeviceIds)).2.g_bestGpu = none ∧
      (SelectDevice cntkDeviceIds (env3 osDevicesHeld) 1 true
        (Statics.initial cntkDeviceIds)).2.log = []) :=
  ⟨by decide!,
    SelectDevice_explicit cntkDeviceIds (env3 osDevicesHeld) 1 true (by decide)⟩

/-! ### C15: the source of the free-memory ratio -/

/-- C15, amended: in scoring, the free-memory ratio of a device is the CUDA
ratio `cudaFreeMem / cudaTotalMem` when the driver is not in TCC mode or the
total memory read from NVML is 0, and the NVML ratio `free / total` in every
other case, that is with a TCC driver and a non-zero NVML total. -/
theorem memRatio_source (pd : ProcessorData) :
    memRatio pd =
      if pd.deviceProp.tccDriver = 0 ∨ pd.memory.total = 0 then
        Dbl.quot pd.cudaFreeMem pd.cudaTotalMem
      else Dbl.quot pd.memory.free pd.memory.total := by
  unfold memRatio
  by_cases h : pd.deviceProp.tccDriver = 0 ∨ pd.memory.total = 0
  · simp only [h, if_true]
  · have h0 : pd.memory.total > 0 := by
      have := fun h' => h (Or.inr h')
      omega
    simp only [h, if_false, h0, if_true]

/-- Counterexample to C15 as stated: for a device with a TCC driver and a
non-zero NVML total the ratio used is that of NVML, 9/10, while the statement
names the CUDA ratio, 1/10. -/
theorem memRatio_tcc :
    pdTcc.deviceProp.tccDriver ≠ 0 ∧ memRatio pdTcc = Dbl.fin (9 / 10) ∧
      specMemRatio pdTcc = Dbl.fin (1 / 10) ∧ memRatio pdTcc ≠ specMemRatio pdTcc := by
  decide!

/-! ### C12: the device lock without the exclusive-lock flag -/

/-- C12, the code at the failing input: on the example machine with all locks
free, `GetDevices(1, bestGpuAvoidSharing)`, the call `SelectDevice` makes for
`lockGPU = false`, returns device 0 and leaves its mutex in `m_GPUMutex`,
acquired by the last entry of the log. -/
theorem GetDevices_holds_lock_without_flag :
    bestGpuAvoidSharing &&& bestGpuExclusiveLock = 0 ∧ state3.m_GPUMutex = [] ∧
      (GetDevices nvml3 osFree 1 bestGpuAvoidSharing state3 []).result = .ok [0] ∧
      (GetDevices nvml3 osFree 1 bestGpuAvoidSharing state3 []).state.m_GPUMutex = [0] ∧
      (GetDevices nvml3 osFree 1 bestGpuAvoidSharing state3 []).log =
        [⟨.global, false, true⟩, ⟨.device 0, false, true⟩, ⟨.device 1, false, true⟩,
          ⟨.device 2, false, true⟩, ⟨.device 0, false, true⟩] ∧
      ((SelectDevice cntkDeviceIds (env3 osFree) (-4) false
        (Statics.initial cntkDeviceIds)).2.g_bestGpu.map (fun g => g.m_GPUMutex)) = some [0] := by
  decide!

/-! ### C16: a held acquisition that fails -/

/-- C16, the code at the failing input: on the example machine the lock of
device 0 passes the trial acquisition and is taken by another process before
the held acquisition; `GetDevices` still returns device 0, although the last
entry of the log records the failed acquisition and `m_GPUMutex` stays empty. -/
theorem GetDevices_keeps_unlocked_candidate :
    (GetDevices nvml3 (osLostAfterTrial 0) 1 (bestGpuAvoidSharing ||| bestGpuExclusiveLock)
        state3 []).result = .ok [0] ∧
      (GetDevices nvml3 (osLostAfterTrial 0) 1 (bestGpuAvoidSharing ||| bestGpuExclusiveLock)
        state3 []).state.m_GPUMutex = [] ∧
      (GetDevices nvml3 (osLostAfterTrial 0) 1 (bestGpuAvoidSharing ||| bestGpuExclusiveLock)
        state3 []).log.getLast? = some ⟨.device 0, false, false⟩ := by
  decide!

/-! ### C17: the contended flag after a refresh pass -/

/-- C17, the code at the failing input: the selector of the example machine
was constructed while a process `cntk` computed on device 0, so its record is
contended; in a later refresh pass NVML reports no resident compute process on
any device and every query succeeds, and the record is still contended. -/
theorem QueryNvmlData_stale_cntkFound :
    (stateBusy.m_procData.map (fun pd => pd.cntkFound)) = [true, false, false] ∧
      (nvml3.device 0).size = 0 ∧
      (match queryLoop nvml3 (List.range stateBusy.m_deviceCount) stateBusy with
        | .next _ => true
        | .back _ => false) = true ∧
      ((QueryNvmlData nvml3 stateBusy).m_procData.map (fun pd => pd.cntkFound))
        = [true, false, false] := by
  decide!

/-! ### C19: the moving average of the utilization -/

theorem smooth_eq (u n sample : Nat) (h1 : u * n + 2 * sample < 2 ^ 32) (h2 : n + 2 < 2 ^ 32) :
    smooth u n sample = (u * n + 2 * sample) / (n + 2) := by
  unfold smooth
  have hs : sample * 2 = 2 * sample := Nat.mul_comm _ _
  rw [hs, Nat.mod_eq_of_lt (by omega : u * n < 2 ^ 32),
    Nat.mod_eq_of_lt (by omega : 2 * sample < 2 ^ 32), Nat.mod_eq_of_lt h1,
    Nat.mod_eq_of_lt h2]

theorem average_between (u n sample : Nat) :
    min u sample ≤ (u * n + 2 * sample) / (n + 2) ∧
      (u * n + 2 * sample) / (n + 2) ≤ max u sample := by
  constructor
  · rw [Nat.le_div_iff_mul_le (by omega)]
    have h1 : min u sample * n ≤ u * n := Nat.mul_le_mul_right _ (Nat.min_le_left _ _)
    have h2 : min u sample * 2 ≤ 2 * sample := by
      have := Nat.min_le_right u sample
      omega
    rw [Nat.mul_add]
    omega
  · apply Nat.div_le_of_le_mul
    have h1 : u * n ≤ max u sample * n := Nat.mul_le_mul_right _ (Nat.le_max_left _ _)
    have h2 : 2 * sample ≤ max u sample * 2 := by
      have := Nat.le_max_right u sample
      omega
    rw [Nat.mul_comm (n + 2), Nat.mul_add]
    omega

theorem queryStep_sampled (nvml : NvmlEnv) (i : Nat) (s : State) (k : Nat) (bus : Int)
    (memory : nvmlMemory_t) (utilization : nvmlUtilization_t) (pd : ProcessorData)
    (hh : (nvml.device i).handle = true) (hb : (nvml.device i).pciBus = some bus)
    (hk : s.m_procData.findIdx? (fun pd => pd.deviceProp.pciBusID == bus) = some k)
    (hm : (nvml.device i).memory = some memory)
    (hu : (nvml.device i).utilization = some utilization)
    (hpd : s.m_procData[k]? = some pd) :
    (queryStep nvml i s).state.m_queryCount = s.m_queryCount + 1 ∧
    ∃ pd', (queryStep nvml i s).state.m_procData[k]? = some pd' ∧ pd'.memory = memory ∧
      pd'.utilization =
        (if s.m_queryCount = 0 then utilization
        else { gpu := smooth pd.utilization.gpu s.m_queryCount utilization.gpu
               memory := smooth pd.utilization.memory s.m_queryCount utilization.memory }) ∧
      pd'.cntkFound =
        if (nvml.device i).size > 0 then
          match (nvml.device i).processInfo with
          | some processInfo => processInfo.any (processIsCntk nvml)
          | none => pd.cntkFound
        else pd.cntkFound := by
  unfold queryStep
  simp only [hh, hb, hk, hm, hu, Bool.not_true, Bool.false_eq_true, if_false]
  by_cases hq : s.m_queryCount = 0
  · by_cases hsz : (nvml.device i).size > 0
    · cases hp : (nvml.device i).processInfo <;>
        simp [hq, hsz, hp, updatePd, QueryStep.state, hpd]
    · simp [hq, hsz, updatePd, QueryStep.state, hpd]
  · by_cases hsz : (nvml.device i).size > 0
    · cases hp : (nvml.device i).processInfo <;>
        simp [hq, hsz, hp, updatePd, QueryStep.state, hpd]
    · simp [hq, hsz, updatePd, QueryStep.state, hpd]

/-- C19: when a refresh step stores a new sample for a device record, with
the accumulated sample count `n = m_queryCount`: for `n = 0` the sample is
stored unchanged; for `n ≥ 1`, as long as the 32-bit arithmetic does not
overflow, the GPU and the memory utilization both become
`floor((u * n + 2 * sample) / (n + 2))` for their old value `u`, which lies
between `min u sample` and `max u sample`. -/
theorem queryStep_utilization (nvml : NvmlEnv) (i : Nat) (s : State) (k : Nat) (bus : Int)
    (memory : nvmlMemory_t) (utilization : nvmlUtilization_t) (pd : ProcessorData)
    (hh : (nvml.device i).handle = true) (hb : (nvml.device i).pciBus = some bus)
    (hk : s.m_procData.findIdx? (fun pd => pd.deviceProp.pciBusID == bus) = some k)
    (hm : (nvml.device i).memory = some memory)
    (hu : (nvml.device i).utilization = some utilization)
    (hpd : s.m_procData[k]? = some pd) :
    ∃ pd', (queryStep nvml i s).state.m_procData[k]? = some pd' ∧
      (s.m_queryCount = 0 → pd'.utilization = utilization) ∧
      (1 ≤ s.m_queryCount → s.m_queryCount + 2 < 2 ^ 32 →
        pd.utilization.gpu * s.m_queryCount + 2 * utilization.gpu < 2 ^ 32 →
        pd.utilization.memory * s.m_queryCount + 2 * utilization.memory < 2 ^ 32 →
        (pd'.utilization.gpu =
            (pd.utilization.gpu * s.m_queryCount + 2 * utilization.gpu) / (s.m_queryCount + 2) ∧
          min pd.utilization.gpu utilization.gpu ≤ pd'.utilization.gpu ∧
          pd'.utilization.gpu ≤ max pd.utilization.gpu utilization.gpu) ∧
        (pd'.utilization.memory =
            (pd.utilization.memory * s.m_queryCount + 2 * utilization.memory)
              / (s.m_queryCount + 2) ∧
          min pd.utilization.memory utilization.memory ≤ pd'.utilization.memory ∧
          pd'.utilization.memory ≤ max pd.utilization.memory utilization.memory)) := by
  obtain ⟨_, pd', hpd', _, hut, _⟩ :=
    queryStep_sampled nvml i s k bus memory utilization pd hh hb hk hm hu hpd
  refine ⟨pd', hpd', ?_, ?_⟩
  · intro h0
    rw [hut, if_pos h0]
  · intro h1 h2 hg hmm
    rw [hut, if_neg (by omega)]
    simp only [smooth_eq _ _ _ hg h2, smooth_eq _ _ _ hmm h2]
    exact ⟨⟨trivial, average_between _ _ _⟩, ⟨trivial, average_between _ _ _⟩⟩

/-- Witness of C19 on the example machine: the second device has the smoothed
utilization 13 after three samples were counted and receives the sample 20;
the step stores `floor((13 * 3 + 2 * 20) / 5) = 15`. -/
theorem queryStep_utilization_witness :
    state3.m_queryCount = 3 ∧ (state3.m_procData.getD 1 pdEmpty).utilization.gpu = 13 ∧
      ∃ pd', (queryStep nvml3 1 state3).state.m_procData[1]? = some pd' ∧
        pd'.utilization.gpu = 15 := by
  obtain ⟨pd', h1, _, h3⟩ := queryStep_utilization nvml3 1 state3 1 2
    { total := 10, free := 5, used := 5 } { gpu := 20, memory := 0 }
    (state3.m_procData.getD 1 pdEmpty) (by decide) (by decide) (by decide) (by decide)
    (by decide) (by decide)
  have h := (h3 (by decide) (by decide) (by decide) (by decide)).1.1
  exact ⟨by decide, by decide, pd', h1, by rw [h]; decide⟩

/-! ### C18: a failing query ends the refresh pass -/

theorem map_deviceProp_modify (f : ProcessorData → ProcessorData)
    (hf : ∀ pd, (f pd).deviceProp = pd.deviceProp) (l : List ProcessorData) (k : Nat) :
    (l.modify f k).map (fun pd => pd.deviceProp) = l.map (fun pd => pd.deviceProp) := by
  induction l generalizing k with
  | nil => cases k <;> simp [List.modify]
  | cons x l ih =>
    cases k with
    | zero => simp [List.modify, hf]
    | succ k => simpa [List.modify] using ih k

theorem queryStep_deviceProp (nvml : NvmlEnv) (i : Nat) (s : State) :
    (queryStep nvml i s).state.m_procData.map (fun pd => pd.deviceProp) =
      s.m_procData.map (fun pd => pd.deviceProp) := by
  unfold queryStep
  simp only []
  repeat' split
  all_goals simp [QueryStep.state, updatePd, map_deviceProp_modify]

theorem handleTarget_congr (nvml : NvmlEnv) (s s' : State) (i : Nat)
    (h : s'.m_procData.map (fun pd => pd.deviceProp) =
      s.m_procData.map (fun pd => pd.deviceProp)) :
    handleTarget nvml s' i = handleTarget nvml s i := by
  have key : ∀ bus : Int,
      s'.m_procData.findIdx? (fun pd => pd.deviceProp.pciBusID == bus) =
        s.m_procData.findIdx? (fun pd => pd.deviceProp.pciBusID == bus) := by
    intro bus
    have h1 := List.findIdx?_map (p := fun dp : cudaDeviceProp => dp.pciBusID == bus)
      (fun pd : ProcessorData => pd.deviceProp) s'.m_procData
    have h2 := List.findIdx?_map (p := fun dp : cudaDeviceProp => dp.pciBusID == bus)
      (fun pd : ProcessorData => pd.deviceProp) s.m_procData
    rw [h] at h1
    exact (h1.symm.trans h2)
  unfold handleTarget
  split
  · split
    · exact key _
    · rfl
  · rfl

theorem sampled_congr (nvml : NvmlEnv) (s s' : State) (i : Nat)
    (h : s'.m_procData.map (fun pd => pd.deviceProp) =
      s.m_procData.map (fun pd => pd.deviceProp)) :
    sampled nvml s' i = sampled nvml s i := by
  unfold sampled
  rw [handleTarget_congr nvml s s' i h]

theorem queryStep_other (nvml : NvmlEnv) (i : Nat) (s : State) (j : Nat)
    (hj : handleTarget nvml s i ≠ some j) :
    (queryStep nvml i s).state.m_procData[j]? = s.m_procData[j]? := by
  unfold handleTarget at hj
  unfold queryStep
  simp only []
  by_cases hh : (nvml.device i).handle = true
  · simp only [hh, if_true] at hj
    cases hb : (nvml.device i).pciBus with
    | none => simp [hh, QueryStep.state]
    | some bus =>
      simp only [hb] at hj
      cases hk : s.m_procData.findIdx? (fun pd => pd.deviceProp.pciBusID == bus) with
      | none => simp [hh, hk, QueryStep.state]
      | some k =>
        have hkj : k ≠ j := fun h => hj (by rw [hk, h])
        simp only [hh, hk, Bool.not_true, Bool.false_eq_true, if_false]
        repeat' split
        all_goals simp [QueryStep.state, updatePd, List.getElem?_modify_ne _ _ hkj]
  · simp [hh, QueryStep.state]

theorem queryStep_count (nvml : NvmlEnv) (i : Nat) (s : State) :
    (queryStep nvml i s).state.m_queryCount =
      s.m_queryCount + (if sampled nvml s i = true then 1 else 0) := by
  by_cases hh : (nvml.device i).handle = true
  · cases hb : (nvml.device i).pciBus with
    | none =>
      have hsam : sampled nvml s i = false := by simp [sampled, handleTarget, hh, hb]
      rw [hsam]
      unfold queryStep
      simp [hh, hb, QueryStep.state]
    | some bus =>
      cases hk : s.m_procData.findIdx? (fun pd => pd.deviceProp.pciBusID == bus) with
      | none =>
        have hsam : sampled nvml s i = false := by simp [sampled, handleTarget, hh, hb, hk]
        rw [hsam]
        unfold queryStep
        simp [hh, hb, hk, QueryStep.state]
      | some k =>
        cases hm : (nvml.device i).memory with
        | none =>
          have hsam : sampled nvml s i = false := by simp [sampled, handleTarget, hh, hb, hk, hm]
          rw [hsam]
          unfold queryStep
          simp [hh, hb, hk, hm, QueryStep.state]
        | some memory =>
          cases hu : (nvml.device i).utilization with
          | none =>
            have hsam : sampled nvml s i = false := by
              simp [sampled, handleTarget, hh, hb, hk, hm, hu]
            rw [hsam]
            unfold queryStep
            simp [hh, hb, hk, hm, hu, QueryStep.state, updatePd]
          | some utilization =>
            have hsam : sampled nvml s i = true := by
              simp [sampled, handleTarget, hh, hb, hk, hm, hu]
            rw [hsam, if_pos rfl]
            unfold queryStep
            simp only [hh, hb, hk, hm, hu, Bool.not_true, Bool.false_eq_true, if_false]
            repeat' split
            all_goals simp [QueryStep.state, updatePd]
  · have hsam : sampled nvml s i = false := by simp [sampled, handleTarget, hh]
    rw [hsam]
    unfold queryStep
    simp [hh, QueryStep.state]

theorem queryLoop_deviceProp (nvml : NvmlEnv) (is : List Nat) :
    ∀ s : State, (queryLoop nvml is s).state.m_procData.map (fun pd => pd.deviceProp) =
      s.m_procData.map (fun pd => pd.deviceProp) := by
  induction is with
  | nil => intro s; rfl
  | cons i rest ih =>
    intro s
    have h := queryStep_deviceProp nvml i s
    unfold queryLoop
    cases hq : queryStep nvml i s with
    | next s' =>
      rw [hq] at h
      exact (ih s').trans h
    | back s' =>
      rw [hq] at h
      exact h

theorem queryLoop_other (nvml : NvmlEnv) (j : Nat) (is : List Nat) :
    ∀ s : State, (∀ i ∈ is, handleTarget nvml s i ≠ some j) →
      (queryLoop nvml is s).state.m_procData[j]? = s.m_procData[j]? := by
  induction is with
  | nil => intro s _; rfl
  | cons i rest ih =>
    intro s hall
    have h := queryStep_other nvml i s j (hall i (by simp))
    have hp := queryStep_deviceProp nvml i s
    unfold queryLoop
    cases hq : queryStep nvml i s with
    | next s' =>
      rw [hq] at h hp
      simp only [QueryStep.state] at h hp
      simp only
      rw [ih s' (fun i' hi' => by
        rw [handleTarget_congr nvml s s' i' hp]
        exact hall i' (List.mem_cons_of_mem _ hi')), h]
    | back s' =>
      rw [hq] at h
      exact h

theorem queryLoop_count (nvml : NvmlEnv) (is : List Nat) :
    ∀ s s' : State, queryLoop nvml is s = .next s' →
      s'.m_queryCount = s.m_queryCount + (is.filter (sampled nvml s)).length := by
  induction is with
  | nil =>
    intro s s' h
    simp only [queryLoop, QueryStep.next.injEq] at h
    simp [h]
  | cons i rest ih =>
    intro s s' h
    have hc := queryStep_count nvml i s
    have hp := queryStep_deviceProp nvml i s
    unfold queryLoop at h
    cases hq : queryStep nvml i s with
    | next s1 =>
      rw [hq] at h hc hp
      simp only [QueryStep.state] at hc hp
      simp only at h
      have h2 := ih s1 s' h
      have hf : rest.filter (sampled nvml s1) = rest.filter (sampled nvml s) :=
        List.filter_congr (fun i' _ => sampled_congr nvml s s1 i' hp)
      rw [h2, hc, hf, List.filter_cons]
      split
      · simp only [List.length_cons]; omega
      · simp only [Nat.add_zero]
    | back s1 =>
      rw [hq] at h
      simp at h

theorem queryLoop_append_back (nvml : NvmlEnv) (l1 l2 : List Nat) (i : Nat) :
    ∀ s sk sk' : State, queryLoop nvml l1 s = .next sk → queryStep nvml i sk = .back sk' →
      queryLoop nvml (l1 ++ i :: l2) s = .back sk' := by
  induction l1 with
  | nil =>
    intro s sk sk' h1 h2
    simp only [queryLoop, QueryStep.next.injEq] at h1
    subst h1
    simp [queryLoop, h2]
  | cons a l1 ih =>
    intro s sk sk' h1 h2
    unfold queryLoop at h1
    simp only [List.cons_append]
    unfold queryLoop
    cases hq : queryStep nvml a s with
    | next s1 =>
      rw [hq] at h1
      exact ih s1 sk sk' h1 h2
    | back s1 =>
      rw [hq] at h1
      simp at h1

theorem range_split (k m : Nat) (hk : k < m) :
    List.range m = List.range k ++ k :: List.range' (k + 1) (m - (k + 1)) := by
  have h := List.range'_append_1 0 k (m - (k + 1) + 1)
  rw [Nat.zero_add, List.range'_succ] at h
  rw [List.range_eq_range', List.range_eq_range', h]
  congr 1
  omega

theorem QueryNvmlData_back (nvml : NvmlEnv) (s : State) (k : Nat) (sk sk' : State)
    (hcuda : s.m_cudaData = true) (hk : k < s.m_deviceCount)
    (hpre : queryLoop nvml (List.range k) s = .next sk)
    (hfail : queryStep nvml k sk = .back sk') :
    QueryNvmlData nvml s = sk' ∧
    (∀ j, (∀ i, i ≤ k → handleTarget nvml s i ≠ some j) →
      sk'.m_procData[j]? = s.m_procData[j]?) ∧
    sk'.m_queryCount =
      s.m_queryCount + ((List.range (k + 1)).filter (sampled nvml s)).length := by
  have hp : sk.m_procData.map (fun pd => pd.deviceProp) =
      s.m_procData.map (fun pd => pd.deviceProp) := by
    have := queryLoop_deviceProp nvml (List.range k) s
    rw [hpre] at this
    exact this
  refine ⟨?_, ?_, ?_⟩
  · unfold QueryNvmlData
    rw [range_split k s.m_deviceCount hk, queryLoop_append_back nvml _ _ k s sk sk' hpre hfail]
    simp [hcuda]
  · intro j hj
    have h1 := queryLoop_other nvml j (List.range k) s
      (fun i hi => hj i (by rw [List.mem_range] at hi; omega))
    have h2 := queryStep_other nvml k sk j (by
      rw [handleTarget_congr nvml s sk k hp]
      exact hj k (Nat.le_refl k))
    rw [hpre] at h1
    rw [hfail] at h2
    exact h2.trans h1
  · have h1 := queryLoop_count nvml (List.range k) s sk hpre
    have h2 := queryStep_count nvml k sk
    rw [hfail, sampled_congr nvml s sk k hp] at h2
    simp only [QueryStep.state] at h2
    rw [h2, h1, List.range_succ, List.filter_append, List.length_append, List.filter_cons]
    split <;> simp [Nat.add_assoc]

theorem testedQueryFails_congr (nvml : NvmlEnv) (s s' : State) (i : Nat)
    (h : s'.m_procData.map (fun pd => pd.deviceProp) =
      s.m_procData.map (fun pd => pd.deviceProp)) :
    testedQueryFails nvml s' i = testedQueryFails nvml s i := by
  unfold testedQueryFails
  rw [handleTarget_congr nvml s s' i h]

theorem queryStep_back_of_fails (nvml : NvmlEnv) (i : Nat) (s : State)
    (h : testedQueryFails nvml s i = true) :
    queryStep nvml i s = .back (queryStep nvml i s).state := by
  unfold testedQueryFails handleTarget at h
  by_cases hh : (nvml.device i).handle = true
  · cases hb : (nvml.device i).pciBus with
    | none => unfold queryStep; simp [hh, hb, QueryStep.state]
    | some bus =>
      cases hk : s.m_procData.findIdx? (fun pd => pd.deviceProp.pciBusID == bus) with
      | none => simp [hh, hb, hk] at h
      | some k =>
        cases hm : (nvml.device i).memory with
        | none => unfold queryStep; simp [hh, hb, hk, hm, QueryStep.state]
        | some memory =>
          cases hu : (nvml.device i).utilization with
          | none => unfold queryStep; simp [hh, hb, hk, hm, hu, QueryStep.state]
          | some utilization =>
            simp only [hh, hb, hk, hm, hu, Bool.not_true, Option.isNone_some, Option.isSome_some,
              Bool.false_or, Bool.true_and, Bool.and_eq_true, decide_eq_true_eq,
              Option.isNone_iff_eq_none, if_true] at h
            unfold queryStep
            simp [hh, hb, hk, hm, hu, h.1, h.2, QueryStep.state]
  · unfold queryStep; simp [hh, QueryStep.state]

theorem queryStep_next_of_not_fails (nvml : NvmlEnv) (i : Nat) (s : State)
    (h : testedQueryFails nvml s i = false) :
    queryStep nvml i s = .next (queryStep nvml i s).state := by
  unfold testedQueryFails handleTarget at h
  by_cases hh : (nvml.device i).handle = true
  · cases hb : (nvml.device i).pciBus with
    | none => simp [hh, hb] at h
    | some bus =>
      cases hk : s.m_procData.findIdx? (fun pd => pd.deviceProp.pciBusID == bus) with
      | none => unfold queryStep; simp [hh, hb, hk, QueryStep.state]
      | some k =>
        cases hm : (nvml.device i).memory with
        | none => simp [hh, hb, hk, hm] at h
        | some memory =>
          cases hu : (nvml.device i).utilization with
          | none => simp [hh, hb, hk, hm, hu] at h
          | some utilization =>
            by_cases hsz : (nvml.device i).size > 0
            · cases hp : (nvml.device i).processInfo with
              | none => simp [hh, hb, hk, hm, hu, hsz, hp] at h
              | some processInfo =>
                unfold queryStep
                simp [hh, hb, hk, hm, hu, hsz, hp, QueryStep.state]
            · unfold queryStep
              simp [hh, hb, hk, hm, hu, hsz, QueryStep.state]
  · simp [hh] at h

theorem queryLoop_next_of_not_fails (nvml : NvmlEnv) (is : List Nat) :
    ∀ s : State, (∀ i ∈ is, testedQueryFails nvml s i = false) →
      ∃ s', queryLoop nvml is s = .next s' := by
  induction is with
  | nil => intro s _; exact ⟨s, rfl⟩
  | cons i rest ih =>
    intro s hall
    have h1 := queryStep_next_of_not_fails nvml i s (hall i (by simp))
    generalize (queryStep nvml i s).state = s1 at h1
    have hp := queryStep_deviceProp nvml i s
    rw [h1] at hp
    simp only [QueryStep.state] at hp
    obtain ⟨s2, h2⟩ := ih s1 (fun i' hi' => by
      rw [testedQueryFails_congr nvml s s1 i' hp]
      exact hall i' (List.mem_cons_of_mem _ hi'))
    exact ⟨s2, by simp [queryLoop, h1, h2]⟩

theorem queryStep_nvmlData (nvml : NvmlEnv) (i : Nat) (s : State) :
    (queryStep nvml i s).state.m_nvmlData = s.m_nvmlData := by
  unfold queryStep
  simp only []
  repeat' split
  all_goals simp [QueryStep.state, updatePd]

theorem queryLoop_nvmlData (nvml : NvmlEnv) (is : List Nat) :
    ∀ s : State, (queryLoop nvml is s).state.m_nvmlData = s.m_nvmlData := by
  induction is with
  | nil => intro s; rfl
  | cons i rest ih =>
    intro s
    have h := queryStep_nvmlData nvml i s
    unfold queryLoop
    cases hq : queryStep nvml i s with
    | next s' =>
      rw [hq] at h
      exact (ih s').trans h
    | back s' =>
      rw [hq] at h
      exact h

theorem queryLoop_concat_back (nvml : NvmlEnv) (l1 : List Nat) (i : Nat) :
    ∀ s sk sk' : State, queryLoop nvml l1 s = .next sk → queryStep nvml i sk = .back sk' →
      queryLoop nvml (l1 ++ [i]) s = .back sk' :=
  fun s sk sk' h1 h2 => queryLoop_append_back nvml l1 [] i s sk sk' h1 h2

/-- Counterexample to C18 as stated, on the example machine: the call that
reads the process count for handle 1 fails, every other query succeeds.  The
pass goes on to the end: the record of device 2, which only handle 2 resolves
to, gets a new utilization and the sample counter advances for all three
devices. -/
theorem QueryNvmlData_count_query_untested :
    (nvmlCountFail.device 1).sizeResult = false ∧
      handleTarget nvmlCountFail state3 0 = some 0 ∧
      handleTarget nvmlCountFail state3 1 = some 1 ∧
      handleTarget nvmlCountFail state3 2 = some 2 ∧
      (state3.m_procData.map (fun pd => pd.utilization.gpu)) = [10, 13, 45] ∧
      ((QueryNvmlData nvmlCountFail state3).m_procData.map (fun pd => pd.utilization.gpu))
        = [10, 15, 57] ∧
      (QueryNvmlData nvmlCountFail state3).m_queryCount = state3.m_queryCount + 3 := by
  decide!

/-- C18, amended: when every query whose result the loop tests succeeds for
the handles before index `k` and one of them fails for handle `k` (the query
of the handle, of its PCI information, or, for a handle that resolves to a
record, of the memory, of the utilization or of the process list), the refresh
pass ends with the step for handle `k`: `m_nvmlData` is not set, every record
that no handle with index at most `k` resolves to is exactly as before the
pass, and the sample counter has advanced only by the samples taken through
the handles with index at most `k`. -/
theorem QueryNvmlData_failure (nvml : NvmlEnv) (s : State) (k : Nat)
    (hcuda : s.m_cudaData = true) (hk : k < s.m_deviceCount)
    (hpre : ∀ i, i < k → testedQueryFails nvml s i = false)
    (hfail : testedQueryFails nvml s k = true) :
    QueryNvmlData nvml s = (queryLoop nvml (List.range (k + 1)) s).state ∧
    (QueryNvmlData nvml s).m_nvmlData = s.m_nvmlData ∧
    (∀ j, (∀ i, i ≤ k → handleTarget nvml s i ≠ some j) →
      (QueryNvmlData nvml s).m_procData[j]? = s.m_procData[j]?) ∧
    (QueryNvmlData nvml s).m_queryCount =
      s.m_queryCount + ((List.range (k + 1)).filter (sampled nvml s)).length := by
  obtain ⟨sk, hsk⟩ := queryLoop_next_of_not_fails nvml (List.range k) s
    (fun i hi => hpre i (List.mem_range.1 hi))
  have hp : sk.m_procData.map (fun pd => pd.deviceProp) =
      s.m_procData.map (fun pd => pd.deviceProp) := by
    have := queryLoop_deviceProp nvml (List.range k) s
    rw [hsk] at this
    exact this
  have hback := queryStep_back_of_fails nvml k sk (by
    rw [testedQueryFails_congr nvml s sk k hp]
    exact hfail)
  generalize (queryStep nvml k sk).state = sk' at hback
  obtain ⟨h1, h2, h3⟩ := QueryNvmlData_back nvml s k sk sk' hcuda hk hsk hback
  have hloop : queryLoop nvml (List.range (k + 1)) s = .back sk' := by
    rw [List.range_succ]
    exact queryLoop_concat_back nvml _ k s sk sk' hsk hback
  refine ⟨?_, ?_, ?_, ?_⟩
  · rw [h1, hloop]
    rfl
  · have := queryLoop_nvmlData nvml (List.range (k + 1)) s
    rw [hloop] at this
    rw [h1]
    exact this
  · intro j hj
    rw [h1]
    exact h2 j hj
  · rw [h1]
    exact h3

/-- Witness of C18 on the example machine: the utilization query for handle 1
fails; the pass ends there, the record of device 2 is as before and the sample
counter has advanced by the one sample taken through handle 0. -/
theorem QueryNvmlData_failure_witness :
    testedQueryFails nvmlFail state3 0 = false ∧ testedQueryFails nvmlFail state3 1 = true ∧
      (QueryNvmlData nvmlFail state3).m_nvmlData = state3.m_nvmlData ∧
      (QueryNvmlData nvmlFail state3).m_procData[2]? = state3.m_procData[2]? ∧
      (QueryNvmlData nvmlFail state3).m_queryCount = state3.m_queryCount + 1 := by
  obtain ⟨_, h2, h3, h4⟩ := QueryNvmlData_failure nvmlFail state3 1 (by decide) (by decide)
    (by decide) (by decide)
  refine ⟨by decide, by decide, h2, ?_, ?_⟩
  · exact h3 2 (by
      intro i hi
      have : i = 0 ∨ i = 1 := by omega
      rcases this with rfl | rfl <;> decide)
  · rw [h4]
    decide

/-! ### C20: the shape of the returned list -/

theorem RanksBefore_ne {nvml : NvmlEnv} {flags : Nat} {s : State} {a b : Int}
    (h : RanksBefore nvml flags s a b) : a ≠ b := by
  obtain ⟨sa, sb, ha, hb, _, hlt⟩ := h
  intro hab
  subst hab
  rw [ha] at hb
  have := hlt (Option.some.inj hb)
  omega

theorem ranking_ids_nodup (nvml : NvmlEnv) (flags : Nat) (s : State) (hs : s.WF) :
    ((ranking nvml flags s).map Prod.fst).Nodup :=
  (ranking_ids_pairwise nvml flags s hs).imp (fun h => RanksBefore_ne h)

theorem ranking_ids_nonneg (nvml : NvmlEnv) (flags : Nat) (s : State) (hs : s.WF) :
    ∀ d ∈ (ranking nvml flags s).map Prod.fst, 0 ≤ d := by
  intro d hd
  obtain ⟨y, hy, rfl⟩ := List.mem_map.1 hd
  obtain ⟨pd, hpd, _, rfl⟩ := ranking_mem hy
  exact WF_deviceId_nonneg (WF_frame (QueryNvmlData_frame nvml s) hs) hpd

/-- C20: the list `GetDevices` returns is either exactly `[-1]` or holds
physical device indices only, and no entry occurs in it twice. -/
theorem GetDevices_physical_nodup (nvml : NvmlEnv) (os : LockEnv) (number : Int) (flags : Nat)
    (s : State) (log : LockLog) (hs : s.WF) (best : List Int)
    (h : (GetDevices nvml os number flags s log).result = .ok best) :
    (best = [-1] ∨ ∀ d ∈ best, 0 ≤ d) ∧ best.Nodup := by
  rcases GetDevices_ok_cases nvml os number flags s log best h with
    rfl | ⟨hne, _, htake, hnonempty⟩
  · exact ⟨Or.inl rfl, by simp⟩
  · have hsub : List.Sublist best (candidates nvml flags s) := by
      rw [htake]
      exact (List.take_sublist _ _).trans (available_sublist nvml os flags s log)
    rw [candidates_eq nvml flags s hs hne] at hsub
    by_cases hnil : (ranking nvml flags s).map Prod.fst = []
    · rw [if_pos hnil, List.sublist_singleton] at hsub
      have := hsub.resolve_left hnonempty
      exact ⟨Or.inl this, by rw [this]; simp⟩
    · rw [if_neg hnil] at hsub
      exact ⟨Or.inr (fun d hd => ranking_ids_nonneg nvml flags s hs d (hsub.subset hd)),
        (ranking_ids_nodup nvml flags s hs).sublist hsub⟩

/-- Witness of C20 on the example machine: all devices requested while the
lock of device 0 is held elsewhere; the result is `[1, 2]`. -/
theorem GetDevices_physical_nodup_witness :
    (GetDevices nvml3 (osHeld 0) (-1) 0 state3 []).result = .ok [1, 2] ∧
      (([1, 2] : List Int) = [-1] ∨ ∀ d ∈ ([1, 2] : List Int), 0 ≤ d) ∧
      ([1, 2] : List Int).Nodup :=
  ⟨by decide!,
    GetDevices_physical_nodup nvml3 (osHeld 0) (-1) 0 state3 [] (by decide) [1, 2]
      (by decide!)⟩

/-! ### C11: more free memory never lowers the score or the rank -/

theorem queryStep_next (nvml : NvmlEnv) (i : Nat) (s : State) (k : Nat) (bus : Int)
    (memory : nvmlMemory_t) (utilization : nvmlUtilization_t)
    (hh : (nvml.device i).handle = true) (hb : (nvml.device i).pciBus = some bus)
    (hk : s.m_procData.findIdx? (fun pd => pd.deviceProp.pciBusID == bus) = some k)
    (hm : (nvml.device i).memory = some memory)
    (hu : (nvml.device i).utilization = some utilization)
    (hproc : (nvml.device i).size > 0 → (nvml.device i).processInfo ≠ none) :
    queryStep nvml i s = .next (queryStep nvml i s).state := by
  unfold queryStep
  simp only [hh, hb, hk, hm, hu, Bool.not_true, Bool.false_eq_true, if_false]
  by_cases hsz : (nvml.device i).size > 0
  · cases hp : (nvml.device i).processInfo with
    | none => exact absurd hp (hproc hsz)
    | some ps => simp [hsz, QueryStep.state]
  · simp [hsz, QueryStep.state]

theorem handleTarget_eq (nvml : NvmlEnv) (s : State) (i k : Nat) (bus : Int)
    (hh : (nvml.device i).handle = true) (hb : (nvml.device i).pciBus = some bus)
    (hk : s.m_procData.findIdx? (fun pd => pd.deviceProp.pciBusID == bus) = some k) :
    handleTarget nvml s i = some k := by
  simp [handleTarget, hh, hb, hk]

theorem findIdx?_queryStep (nvml : NvmlEnv) (i : Nat) (s : State) (bus : Int) :
    (queryStep nvml i s).state.m_procData.findIdx? (fun pd => pd.deviceProp.pciBusID == bus) =
      s.m_procData.findIdx? (fun pd => pd.deviceProp.pciBusID == bus) := by
  have h1 := List.findIdx?_map (p := fun dp : cudaDeviceProp => dp.pciBusID == bus)
    (fun pd : ProcessorData => pd.deviceProp) (queryStep nvml i s).state.m_procData
  have h2 := List.findIdx?_map (p := fun dp : cudaDeviceProp => dp.pciBusID == bus)
    (fun pd : ProcessorData => pd.deviceProp) s.m_procData
  rw [queryStep_deviceProp] at h1
  exact h1.symm.trans h2

theorem smooth_first (sample : Nat) (h : 2 * sample < 2 ^ 32) :
    smooth 0 1 sample = 2 * sample / 3 := by
  rw [smooth_eq 0 1 sample (by omega) (by decide)]
  simp

theorem QueryNvmlData_two_handles (nvml : NvmlEnv) (s : State) (k0 k1 : Nat) (b0 b1 : Int)
    (m0 m1 : nvmlMemory_t) (u0 u1 : nvmlUtilization_t) (pd0 pd1 : ProcessorData)
    (hcuda : s.m_cudaData = true) (hcount : s.m_deviceCount = 2) (hq : s.m_queryCount = 0)
    (hh0 : (nvml.device 0).handle = true) (hb0 : (nvml.device 0).pciBus = some b0)
    (hk0 : s.m_procData.findIdx? (fun pd => pd.deviceProp.pciBusID == b0) = some k0)
    (hm0 : (nvml.device 0).memory = some m0) (hu0 : (nvml.device 0).utilization = some u0)
    (hproc0 : (nvml.device 0).size > 0 → (nvml.device 0).processInfo ≠ none)
    (hh1 : (nvml.device 1).handle = true) (hb1 : (nvml.device 1).pciBus = some b1)
    (hk1 : s.m_procData.findIdx? (fun pd => pd.deviceProp.pciBusID == b1) = some k1)
    (hm1 : (nvml.device 1).memory = some m1) (hu1 : (nvml.device 1).utilization = some u1)
    (hne : k0 ≠ k1) (hpd0 : s.m_procData[k0]? = some pd0) (hpd1 : s.m_procData[k1]? = some pd1)
    (hzero : pd1.utilization = ⟨0, 0⟩)
    (hgpu : 2 * u1.gpu < 2 ^ 32) (hmem : 2 * u1.memory < 2 ^ 32) :
    (QueryNvmlData nvml s).m_queryCount = 2 ∧
    ∃ pd0' pd1', (QueryNvmlData nvml s).m_procData[k0]? = some pd0' ∧ pd0'.utilization = u0 ∧
      (QueryNvmlData nvml s).m_procData[k1]? = some pd1' ∧
      pd1'.utilization = ⟨2 * u1.gpu / 3, 2 * u1.memory / 3⟩ := by
  -- the step for handle 0
  obtain ⟨hc0, pd0', hpd0', _, hut0, _⟩ :=
    queryStep_sampled nvml 0 s k0 b0 m0 u0 pd0 hh0 hb0 hk0 hm0 hu0 hpd0
  have hnext := queryStep_next nvml 0 s k0 b0 m0 u0 hh0 hb0 hk0 hm0 hu0 hproc0
  have hother0 := queryStep_other nvml 0 s k1 (by
    rw [handleTarget_eq nvml s 0 k0 b0 hh0 hb0 hk0]
    exact fun h => hne (Option.some.inj h))
  generalize (queryStep nvml 0 s).state = s1 at hc0 hpd0' hnext hother0
  rw [hq, if_pos rfl] at hut0
  -- the step for handle 1
  have hk1' : s1.m_procData.findIdx? (fun pd => pd.deviceProp.pciBusID == b1) = some k1 := by
    have := findIdx?_queryStep nvml 0 s b1
    rw [hnext] at this
    exact this.trans hk1
  obtain ⟨hc1, pd1', hpd1', _, hut1, _⟩ :=
    queryStep_sampled nvml 1 s1 k1 b1 m1 u1 pd1 hh1 hb1 hk1' hm1 hu1 (hother0.trans hpd1)
  have hother1 := queryStep_other nvml 1 s1 k0 (by
    rw [handleTarget_eq nvml s1 1 k1 b1 hh1 hb1 hk1']
    exact fun h => hne (Option.some.inj h).symm)
  rw [hc0, hq, if_neg (by decide), hzero, smooth_first _ hgpu, smooth_first _ hmem] at hut1
  -- the pass as a whole
  have hfinal : (QueryNvmlData nvml s).m_queryCount = (queryStep nvml 1 s1).state.m_queryCount ∧
      (QueryNvmlData nvml s).m_procData = (queryStep nvml 1 s1).state.m_procData := by
    unfold QueryNvmlData
    rw [hcount]
    have hr : List.range 2 = [0, 1] := by decide
    simp only [hcuda, Bool.not_true, Bool.false_eq_true, if_false, hr, queryLoop, hnext]
    cases hstep : queryStep nvml 1 s1 <;> simp [QueryStep.state]
  rw [hfinal.1, hfinal.2, hc1, hc0, hq]
  exact ⟨rfl, pd0', pd1', hother1.trans hpd0', hut0, hpd1', hut1⟩

theorem State.new_eq_refresh (cuda : CudaEnv) (nvml : NvmlEnv) (count : Nat)
    (hcount : cuda.deviceCount = some count) (hpos : 0 < count) (hinit : nvml.initOk = true) :
    State.new cuda nvml =
      { QueryNvmlData nvml (beforeFirstRefresh cuda count) with m_initialized := true } := by
  unfold State.new Init beforeFirstRefresh GetNvmlData
  simp only [hcount, Option.getD_some, Bool.false_eq_true, if_false, List.nil_append, hpos,
    if_true, gt_iff_lt]
  unfold GetCudaProperties
  simp [hinit, hpos]

theorem beforeFirstRefresh_two (cuda : CudaEnv) :
    (beforeFirstRefresh cuda 2).m_cudaData = true ∧
      (beforeFirstRefresh cuda 2).m_deviceCount = 2 ∧
      (beforeFirstRefresh cuda 2).m_queryCount = 0 ∧
      ∃ r0 r1, (beforeFirstRefresh cuda 2).m_procData = [r0, r1] ∧
        r0.deviceProp = (cuda.device 0).deviceProp ∧ r1.deviceProp = (cuda.device 1).deviceProp ∧
        r0.utilization = ⟨0, 0⟩ ∧ r1.utilization = ⟨0, 0⟩ := by
  refine ⟨by simp [beforeFirstRefresh, GetCudaProperties], by
    simp [beforeFirstRefresh, GetCudaProperties], by
    simp [beforeFirstRefresh, GetCudaProperties], ?_⟩
  have hrec : (beforeFirstRefresh cuda 2).m_procData = cudaLoop cuda 0 [pdEmpty, pdEmpty] := by
    simp [beforeFirstRefresh, GetCudaProperties, List.replicate]
  rw [hrec]
  simp only [cudaLoop]
  exact ⟨_, _, rfl, rfl, rfl, rfl, rfl⟩

/-- C21: the sample counter is advanced once per device within a refresh
pass.  When a selector is constructed on a machine with two devices, NVML
resolving handle 0 to record `k0` and handle 1 to the other record `k1` with
the samples `u0` and `u1`, the first refresh stores `u0` unchanged in record
`k0` and `floor(2 * u1 / 3)` for the GPU and the memory utilization in record
`k1`, and leaves `m_queryCount = 2`. -/
theorem State.new_two_devices (cuda : CudaEnv) (nvml : NvmlEnv) (k0 k1 : Nat)
    (m0 m1 : nvmlMemory_t) (u0 u1 : nvmlUtilization_t)
    (hcount : cuda.deviceCount = some 2) (hinit : nvml.initOk = true)
    (hk0 : k0 < 2) (hk1 : k1 < 2) (hne : k0 ≠ k1)
    (hbus : (cuda.device 0).deviceProp.pciBusID ≠ (cuda.device 1).deviceProp.pciBusID)
    (hh0 : (nvml.device 0).handle = true)
    (hb0 : (nvml.device 0).pciBus = some (cuda.device k0).deviceProp.pciBusID)
    (hm0 : (nvml.device 0).memory = some m0) (hu0 : (nvml.device 0).utilization = some u0)
    (hproc0 : (nvml.device 0).size > 0 → (nvml.device 0).processInfo ≠ none)
    (hh1 : (nvml.device 1).handle = true)
    (hb1 : (nvml.device 1).pciBus = some (cuda.device k1).deviceProp.pciBusID)
    (hm1 : (nvml.device 1).memory = some m1) (hu1 : (nvml.device 1).utilization = some u1)
    (hgpu : 2 * u1.gpu < 2 ^ 32) (hmem : 2 * u1.memory < 2 ^ 32) :
    (State.new cuda nvml).m_queryCount = 2 ∧
    ∃ pd0' pd1', (State.new cuda nvml).m_procData[k0]? = some pd0' ∧ pd0'.utilization = u0 ∧
      (State.new cuda nvml).m_procData[k1]? = some pd1' ∧
      pd1'.utilization = ⟨2 * u1.gpu / 3, 2 * u1.memory / 3⟩ := by
  obtain ⟨hcuda, hdc, hq, r0, r1, hrec, hp0, hp1, hz0, hz1⟩ := beforeFirstRefresh_two cuda
  have hfind : ∀ k, k < 2 →
      (beforeFirstRefresh cuda 2).m_procData.findIdx?
        (fun pd => pd.deviceProp.pciBusID == (cuda.device k).deviceProp.pciBusID) = some k := by
    intro k hk
    have : k = 0 ∨ k = 1 := by omega
    rcases this with rfl | rfl
    · simp [hrec, List.findIdx?_cons, hp0]
    · simp [hrec, List.findIdx?_cons, hp0, hp1, hbus]
  have hget : ∀ k, k < 2 → ∃ pd, (beforeFirstRefresh cuda 2).m_procData[k]? = some pd ∧
      pd.utilization = ⟨0, 0⟩ := by
    intro k hk
    have : k = 0 ∨ k = 1 := by omega
    rcases this with rfl | rfl
    · exact ⟨r0, by simp [hrec], hz0⟩
    · exact ⟨r1, by simp [hrec], hz1⟩
  obtain ⟨pd0, hpd0, _⟩ := hget k0 hk0
  obtain ⟨pd1, hpd1, hzero⟩ := hget k1 hk1
  have h := QueryNvmlData_two_handles nvml (beforeFirstRefresh cuda 2) k0 k1 _ _ m0 m1 u0 u1
    pd0 pd1 hcuda hdc hq hh0 hb0 (hfind k0 hk0) hm0 hu0 hproc0 hh1 hb1 (hfind k1 hk1) hm1 hu1
    hne hpd0 hpd1 hzero hgpu hmem
  rw [State.new_eq_refresh cuda nvml 2 hcount (by decide) hinit]
  exact h

/-- Witness of C21 on the first two devices of the example machine, with the
samples 10 and 20: the records store the utilizations 10 and 13. -/
theorem State.new_two_devices_witness :
    (State.new cuda2 nvml3).m_procData.map (fun pd => pd.utilization.gpu) = [10, 13] ∧
      ((State.new cuda2 nvml3).m_queryCount = 2 ∧
        ∃ pd0' pd1', (State.new cuda2 nvml3).m_procData[0]? = some pd0' ∧
          pd0'.utilization = ⟨10, 0⟩ ∧
          (State.new cuda2 nvml3).m_procData[1]? = some pd1' ∧
          pd1'.utilization = ⟨2 * 20 / 3, 2 * 0 / 3⟩) :=
  ⟨by decide,
    State.new_two_devices cuda2 nvml3 0 1 { total := 10, free := 9, used := 1 }
      { total := 10, free := 5, used := 5 } { gpu := 10, memory := 0 } { gpu := 20, memory := 0 }
      (by decide) (by decide) (by decide) (by decide) (by decide) (by decide) (by decide)
      (by decide) (by decide) (by decide) (fun h => absurd h (by decide)) (by decide)
      (by decide) (by decide) (by decide) (by decide) (by decide)⟩

/-! ### The flags and the count saved for a requery -/

theorem LockDevice_last (os : LockEnv) (d : Int) (trial : Bool) (s : State) (log : LockLog) :
    (LockDevice os d trial s log).2.1.m_lastFlags = s.m_lastFlags ∧
      (LockDevice os d trial s log).2.1.m_lastCount = s.m_lastCount := by
  unfold LockDevice
  by_cases hd : d < 0
  · simp [hd]
  · by_cases ha : (Acquire os (.device d) false log).1 = true
    · cases trial <;> simp [hd, ha]
    · simp [hd, ha]

theorem heldLoop_last (os : LockEnv) (l : List Int) :
    ∀ (s : State) (log : LockLog),
      (heldLoop os l s log).1.m_lastFlags = s.m_lastFlags ∧
        (heldLoop os l s log).1.m_lastCount = s.m_lastCount := by
  induction l with
  | nil => intro s log; exact ⟨rfl, rfl⟩
  | cons b rest ih =>
    intro s log
    have h := LockDevice_last os b false s log
    have h2 := ih (LockDevice os b false s log).2.1 (LockDevice os b false s log).2.2
    simp only [heldLoop]
    exact ⟨h2.1.trans h.1, h2.2.trans h.2⟩

theorem GetDevices_saves_query (nvml : NvmlEnv) (os : LockEnv) (number : Int) (flags : Nat)
    (s : State) (log : LockLog) (best : List Int) (hne : s.m_procData ≠ [])
    (h : (GetDevices nvml os number flags s log).result = .ok best) :
    (GetDevices nvml os number flags s log).state.m_lastFlags = effectiveFlags s flags ∧
      (GetDevices nvml os number flags s log).state.m_lastCount =
        ((available nvml os flags s log).take (toSizeT (requested s number))).length := by
  have hf := effectiveFlags_frame (QueryNvmlData_frame nvml s) flags
  have hlen : s.m_procData.length ≠ 0 := by simpa using hne
  have hres := GetDevices_result nvml os number flags s log hne
  rw [h] at hres
  have hg : os.acquire log .global (globalWait s flags) = true := by
    by_contra hg
    simp [hg] at hres
  have hg' : os.acquire log .global
      (effectiveFlags s flags &&& bestGpuExclusiveLock != 0) = true := hg
  have htake : ∀ (t : List Int) (n : Nat),
      (if t.length > n then t.take n else t) = t.take n := by
    intro t n
    split
    · rfl
    · rw [List.take_of_length_le (by omega)]
  unfold GetDevices
  simp only [hlen, if_false, hf, Acquire, hg', Bool.not_true, Bool.false_eq_true, htake]
  refine ⟨(heldLoop_last os _ _ _).1.trans rfl, (heldLoop_last os _ _ _).2.trans ?_⟩
  simp only [available, candidates, scoredSlots, requested, globalWait, Acquire, emptySlot, hg']

end BestGpu
